import Mathlib

/-!
# Verification of the property-macro generator `gen_property.cc`

The generator walks every feature mask from `0` to `FEATURES_MAX`, keeps the
masks accepted by `features_valid`, and for each of them prints a
documentation comment followed by one `#define`.

Embedding conventions.

* `features` is `std::uint64_t` in the source.  No operation of the program
  can overflow (only `&`, `|` and the loop increment below `FEATURES_MAX`),
  so masks are natural numbers.
* A C++ condition `f & M` is true exactly when `f &&& M` is not zero; this is
  `test f M`.
* Every function that writes to `cout` is embedded as the text it appends to
  the stream.  A function with a `bool &first_item` parameter takes the
  current value and returns the appended text together with the new value.
-/

namespace Faster

/-! ## Feature model (gen_property.cc, lines 23-47) -/

abbrev features := Nat

def ABSTRACT : features := 0x00000001
def CUSTOM_FIELD : features := 0x00000002
def DETECT_TYPE : features := 0x00000004
def EXCEPTIONS : features := 0x00000008
def LOCK : features := 0x00000010
def MUTABLE : features := 0x00000020
def NOT_CONSTEXPR : features := 0x00000040
def NO_COPYING : features := 0x00000080
def NO_FIELD : features := 0x00000100
def NO_SETTERS : features := 0x00000200
def OVERRIDE : features := 0x00000400
def PASS_BY_VALUE : features := 0x00000800
def PRIVATE : features := 0x00001000
def PRIV_SET : features := 0x00002000
def READ_ONLY : features := 0x00004000
def REFERENCE : features := 0x00008000
def RWLOCK : features := 0x00010000
def VOLATILE : features := 0x00020000
def VIRTUAL : features := 0x00040000
def FEATURES_MAX : features := 0x0007FFFF

/-- Truth value of the C++ condition `f & m`. -/
def test (f m : features) : Bool := (f &&& m) != 0

/-- The C++ expression `!!(f & m)`, an integer that is 0 or 1. -/
def bang2 (f m : features) : Nat := if test f m then 1 else 0

/-! ## Validator (gen_property.cc, lines 51-113) -/

def features_valid (f : features) : Bool :=
  if test f ABSTRACT
      && test f (CUSTOM_FIELD ||| DETECT_TYPE ||| LOCK ||| NOT_CONSTEXPR
                 ||| NO_FIELD ||| OVERRIDE ||| RWLOCK ||| VOLATILE ||| VIRTUAL) then
    false
  else if test f CUSTOM_FIELD
      && test f (NO_FIELD ||| VOLATILE) then
    false
  else if test f DETECT_TYPE
      && !(test f (CUSTOM_FIELD ||| NO_FIELD)) then
    false
  else if (bang2 f LOCK + bang2 f RWLOCK + bang2 f VOLATILE) > 1 then
    false
  else if test f MUTABLE
      && test f (PRIV_SET ||| REFERENCE) then
    false
  else if test f NOT_CONSTEXPR
      && test f OVERRIDE then
    false
  else if test f NO_COPYING
      && test f (NO_SETTERS ||| PASS_BY_VALUE ||| READ_ONLY) then
    false
  else if test f NO_FIELD
      && test f VOLATILE then
    false
  else if test f OVERRIDE
      && test f (LOCK ||| RWLOCK ||| VIRTUAL) then
    false
  else if test f PASS_BY_VALUE
      && test f REFERENCE then
    false
  else if test f PRIVATE
      && test f PRIV_SET then
    false
  else if test f PRIV_SET
      && test f (NO_SETTERS ||| REFERENCE) then
    false
  else if test f READ_ONLY
      && test f (LOCK ||| MUTABLE ||| NO_SETTERS ||| PRIV_SET ||| REFERENCE ||| RWLOCK
                 ||| VOLATILE) then
    false
  else if test f VIRTUAL
      && test f VOLATILE then
    false
  else
    true

/-! ## Documentation comment (gen_property.cc, lines 115-200) -/

def write_macro_comment (f : features) : String :=
  "/**\n * Declares a property.\n *\n"
  -- Name
  ++ " * The property name is taken from the parameter Name.\n"
  -- Type
  ++ (if test f DETECT_TYPE then
        " * The type is automatically detected.\n"
      else
        " * The type is taken from the parameter Type.\n")
  ++ (if test f NO_COPYING then
        " * The property type is not copied, there is no copy setter.\n"
      else if test f PASS_BY_VALUE then
        " * The property type is passed by value.\n"
      else if test f REFERENCE then
        " * The property type should be a reference type.\n"
      else "")
  ++ (if test f NO_SETTERS then
        " * No setters are generated.\n"
      else "")
  -- Field
  ++ (if test f ABSTRACT then "" else "")
  ++ (if test f CUSTOM_FIELD then
        " * The property is using a custom field, specified using the "
          ++ "Field parameter.\n"
      else if test f NO_FIELD then
        " * The property is using the field whose name is <<Name>>_.\n"
      else
        " * The property declares its field whose name is <<Name>>_.\n")
  -- Mutability
  ++ (if test f MUTABLE then
        " * The property is mutable (its value can be changed even "
          ++ "through const references.\n"
      else if test f READ_ONLY then
        " * The property is read-only.\n"
      else
        " * The property is read-write.\n")
  -- Access
  ++ (if test f PRIVATE then
        " * The property is private.\n"
      else if test f PRIV_SET then
        " * The property is public, but any writable access is "
          ++ "private.\n"
      else
        " * The property is public.\n")
  -- Parameterless features
  ++ (if test f ABSTRACT then
        " * The property accessors are abstract.\n"
      else if test f OVERRIDE then
        " * The property accessors override accessors from a "
          ++ "superclass.\n"
      else if test f VIRTUAL then
        " * The property accessors are virtual.\n"
      else "")
  ++ (if test f EXCEPTIONS then
        " * The property accessors may throw.\n"
      else
        " * The property accessors are noexcept.\n")
  ++ (if !(test f (ABSTRACT ||| OVERRIDE ||| NOT_CONSTEXPR)) then
        " * The property accessors are constexpr.\n"
      else "")
  ++ (if test f LOCK then
        " * The property has an associated lock, accessible using the "
          ++ "<<Name>>_lock method.\n"
      else if test f RWLOCK then
        " * The property has an associated shared lock, accessible "
          ++ "using the <<Name>>_lock method.\n"
      else if test f VOLATILE then
        " * The property is volatile, but does not have an associated "
          ++ "lock.\n"
      else "")
  ++ " */\n"

/-! ## Namer (gen_property.cc, lines 202-258) -/

def write_macro_name (f : features) : String :=
  "FASTER_PROPERTY"
  ++ (if test f ABSTRACT then "_AB" else "")
  ++ (if test f CUSTOM_FIELD then "_CF" else "")
  ++ (if test f DETECT_TYPE then "_DT" else "")
  ++ (if test f EXCEPTIONS then "_EX" else "")
  ++ (if test f LOCK then "_LOCK" else "")
  ++ (if test f MUTABLE then "_MUTABLE" else "")
  ++ (if test f NOT_CONSTEXPR then "_NC" else "")
  ++ (if test f NO_COPYING then "_NCP" else "")
  ++ (if test f NO_FIELD then "_NF" else "")
  ++ (if test f NO_SETTERS then "_NS" else "")
  ++ (if test f OVERRIDE then "_OV" else "")
  ++ (if test f PASS_BY_VALUE then "_PBV" else "")
  ++ (if test f PRIVATE then "_PRIV" else "")
  ++ (if test f PRIV_SET then "_PRIVSET" else "")
  ++ (if test f READ_ONLY then "_RO" else "")
  ++ (if test f REFERENCE then "_REF" else "")
  ++ (if test f RWLOCK then "_RWLOCK" else "")
  ++ (if test f VOLATILE then "_VOLATILE" else "")
  ++ (if test f VIRTUAL then "_VT" else "")

def write_macro_args (f : features) : String :=
  "(Name"
  ++ (if !(test f DETECT_TYPE) then ", Type" else "")
  ++ (if test f CUSTOM_FIELD then ", Field" else "")
  ++ ")"

/-! ## Renderer (gen_property.cc, lines 260-563) -/

def write_field (f : features) : String :=
  if test f CUSTOM_FIELD then "Field" else "Name##_"

def write_type (f : features) : String :=
  if test f DETECT_TYPE then
    "decltype (" ++ write_field f ++ ")"
  else
    "Type"

/-- Source `begin_item (bool &first_item)`: the text written and the new value of
`first_item`. -/
def begin_item (first_item : Bool) : String × Bool :=
  if first_item then
    (" \\\n", false)
  else
    (" \\\n" ++ "  \\\n", first_item)

/-- What `declare_field` writes after its call of `begin_item` (lines 301-317). -/
def field_item (f : features) : String :=
  "  private: \\\n"
  ++ "  "
  ++ (if test f MUTABLE then "mutable " else "")
  ++ (if test f DETECT_TYPE then "decltype (Name##_) " else "Type ")
  ++ (if test f VOLATILE then "volatile " else "")
  ++ (if test f READ_ONLY then "const " else "")
  ++ "Name##_;"

def declare_field (f : features) (first_item : Bool) : String × Bool :=
  if test f (ABSTRACT ||| CUSTOM_FIELD ||| NO_FIELD) then
    ("", first_item)
  else
    ((begin_item first_item).1 ++ field_item f, (begin_item first_item).2)

/-- What `declare_const_getter` writes after its call of `begin_item`
(lines 329-375). -/
def const_getter_item (f : features) : String :=
  (if test f PRIVATE then "  private: \\\n" else "  public: \\\n")
  ++ "  "
  ++ (if !(test f (ABSTRACT ||| NOT_CONSTEXPR ||| OVERRIDE)) then "constexpr " else "")
  ++ (if test f (ABSTRACT ||| VIRTUAL) then "virtual " else "")
  ++ write_type f
  ++ (if !(test f (PASS_BY_VALUE ||| REFERENCE)) then
        " const" ++ (if test f VOLATILE then " volatile" else "") ++ " &"
      else "")
  ++ " \\\n"
  ++ "  Name () const"
  ++ (if !(test f (ABSTRACT ||| OVERRIDE ||| VIRTUAL) && test f EXCEPTIONS) then
        " noexcept"
      else "")
  ++ (if test f OVERRIDE then " override" else "")
  ++ (if test f ABSTRACT then
        " = 0;"
      else
        " \\\n" ++ "  \x7b \\\n" ++ "    return " ++ write_field f ++ "; \\\n" ++ "  \x7d")

def declare_const_getter (f : features) (first_item : Bool) : String × Bool :=
  if test f MUTABLE then
    ("", first_item)
  else
    ((begin_item first_item).1 ++ const_getter_item f, (begin_item first_item).2)

/-- What `declare_nonconst_getter` writes after its call of `begin_item`
(lines 387-431). -/
def nonconst_getter_item (f : features) : String :=
  (if test f (PRIVATE ||| PRIV_SET) then "  private: \\\n" else "  public: \\\n")
  ++ "  "
  ++ (if !(test f (ABSTRACT ||| NOT_CONSTEXPR ||| OVERRIDE)) then "constexpr " else "")
  ++ (if test f (ABSTRACT ||| VIRTUAL) then "virtual " else "")
  ++ write_type f
  ++ (if test f VOLATILE then " volatile" else "")
  ++ " &"
  ++ " \\\n"
  ++ "  Name ()"
  ++ (if test f MUTABLE then " const" else "")
  ++ (if !(test f (ABSTRACT ||| OVERRIDE ||| VIRTUAL) && test f EXCEPTIONS) then
        " noexcept"
      else "")
  ++ (if test f OVERRIDE then " override" else "")
  ++ (if test f ABSTRACT then
        " = 0;"
      else
        " \\\n" ++ "  \x7b \\\n" ++ "    return " ++ write_field f ++ "; \\\n" ++ "  \x7d")

def declare_nonconst_getter (f : features) (first_item : Bool) : String × Bool :=
  if test f (READ_ONLY ||| REFERENCE) then
    ("", first_item)
  else
    ((begin_item first_item).1 ++ nonconst_getter_item f, (begin_item first_item).2)

/-- What `declare_setter` writes after its call of `begin_item` (lines 443-472). -/
def setter_item (f : features) : String :=
  (if test f (PRIVATE ||| PRIV_SET) then "  private: \\\n" else "  public: \\\n")
  ++ "  void \\\n"
  ++ "  Name ("
  ++ write_type f
  ++ (if !(test f PASS_BY_VALUE) then " const" else "")
  ++ " "
  ++ (if !(test f PASS_BY_VALUE) then "&" else "")
  ++ "Name##_new_value)"
  ++ (if test f MUTABLE then " const" else "")
  ++ (if !(test f EXCEPTIONS) then " noexcept" else "")
  ++ " \\\n"
  ++ "  \x7b \\\n"
  ++ "    Name () = Name##_new_value; \\\n"
  ++ "  \x7d"

def declare_setter (f : features) (first_item : Bool) : String × Bool :=
  if test f (NO_COPYING ||| NO_SETTERS ||| READ_ONLY ||| REFERENCE) then
    ("", first_item)
  else
    ((begin_item first_item).1 ++ setter_item f, (begin_item first_item).2)

/-- What `declare_move_setter` writes after its call of `begin_item`
(lines 484-505). -/
def move_setter_item (f : features) : String :=
  (if test f (PRIVATE ||| PRIV_SET) then "  private: \\\n" else "  public: \\\n")
  ++ "  void \\\n"
  ++ "  Name ("
  ++ write_type f
  ++ " &&Name##_new_value)"
  ++ (if test f MUTABLE then " const" else "")
  ++ (if !(test f EXCEPTIONS) then " noexcept" else "")
  ++ " \\\n"
  ++ "  \x7b \\\n"
  ++ "    Name () = std::move (Name##_new_value); \\\n"
  ++ "  \x7d"

def declare_move_setter (f : features) (first_item : Bool) : String × Bool :=
  if test f (NO_SETTERS ||| PASS_BY_VALUE ||| READ_ONLY ||| REFERENCE) then
    ("", first_item)
  else
    ((begin_item first_item).1 ++ move_setter_item f, (begin_item first_item).2)

def lock_class (f : features) : String :=
  if test f LOCK then "std::mutex" else "std::shared_mutex"

/-- What `declare_lock` writes after its call of `begin_item` (lines 523-541). -/
def lock_item (f : features) : String :=
  "  private: \\\n"
  ++ "  mutable " ++ lock_class f
  ++ " Name##_lock_; \\\n"
  ++ (if test f PRIVATE then "  private: \\\n" else "  public: \\\n")
  ++ "  "
  ++ (if !(test f NOT_CONSTEXPR) then "constexpr " else "")
  ++ lock_class f ++ " & \\\n"
  ++ "  Name##_lock () const noexcept \\\n"
  ++ "  \x7b \\\n"
  ++ "    return Name##_lock_; \\\n"
  ++ "  \x7d"

def declare_lock (f : features) (first_item : Bool) : String × Bool :=
  if !(test f (LOCK ||| RWLOCK)) then
    ("", first_item)
  else
    ((begin_item first_item).1 ++ lock_item f, (begin_item first_item).2)

/-- The six calls of `declare_macro` (lines 553-560): `first_item` starts as
`true` and is handed from each call to the next; the result is the text the six
calls write, in the order of the calls. -/
def declare_items (f : features) : String :=
  let first_item := true
  let r1 := declare_field f first_item
  let r2 := declare_const_getter f r1.2
  let r3 := declare_nonconst_getter f r2.2
  let r4 := declare_setter f r3.2
  let r5 := declare_move_setter f r4.2
  let r6 := declare_lock f r5.2
  r1.1 ++ r2.1 ++ r3.1 ++ r4.1 ++ r5.1 ++ r6.1

def declare_macro (f : features) : String :=
  write_macro_comment f
  ++ "#define "
  ++ write_macro_name f
  ++ write_macro_args f
  ++ declare_items f
  ++ "\n"

def generate (f : features) : String :=
  if !(features_valid f) then
    ""
  else
    declare_macro f ++ "\n"

/-! ## The flag set a mask denotes (spec §3) -/

/-- The nineteen flags of the feature mask, in the order of the enumeration. -/
inductive Flag
  | abstract | customField | detectType | exceptions | lock | mutable_
  | notConstexpr | noCopying | noField | noSetters | override_ | passByValue
  | private_ | privSet | readOnly | reference | rwlock | volatile_ | virtual_
  deriving DecidableEq, Repr

/-- Bit position of a flag inside the mask. -/
def Flag.bit : Flag → Nat
  | .abstract => 0 | .customField => 1 | .detectType => 2 | .exceptions => 3
  | .lock => 4 | .mutable_ => 5 | .notConstexpr => 6 | .noCopying => 7
  | .noField => 8 | .noSetters => 9 | .override_ => 10 | .passByValue => 11
  | .private_ => 12 | .privSet => 13 | .readOnly => 14 | .reference => 15
  | .rwlock => 16 | .volatile_ => 17 | .virtual_ => 18

/-- The mask constant the source gives to a flag. -/
def Flag.mask : Flag → features
  | .abstract => ABSTRACT | .customField => CUSTOM_FIELD | .detectType => DETECT_TYPE
  | .exceptions => EXCEPTIONS | .lock => LOCK | .mutable_ => MUTABLE
  | .notConstexpr => NOT_CONSTEXPR | .noCopying => NO_COPYING | .noField => NO_FIELD
  | .noSetters => NO_SETTERS | .override_ => OVERRIDE | .passByValue => PASS_BY_VALUE
  | .private_ => PRIVATE | .privSet => PRIV_SET | .readOnly => READ_ONLY
  | .reference => REFERENCE | .rwlock => RWLOCK | .volatile_ => VOLATILE
  | .virtual_ => VIRTUAL

/-- A flag is set in a mask when its bit is one. -/
def isSet (f : features) (x : Flag) : Bool := f.testBit x.bit

/-- Spec §4.2, the fourteen rules: `rules_hold f` says that `f` violates none. -/
def rules_hold (f : features) : Prop :=
  -- (1) ABSTRACT excludes nine flags
  (isSet f .abstract → ∀ y ∈ [Flag.customField, .detectType, .lock, .notConstexpr,
      .noField, .override_, .rwlock, .volatile_, .virtual_], isSet f y = false) ∧
  -- (2) CUSTOM_FIELD excludes NO_FIELD and VOLATILE
  (isSet f .customField → ∀ y ∈ [Flag.noField, .volatile_], isSet f y = false) ∧
  -- (3) DETECT_TYPE requires CUSTOM_FIELD or NO_FIELD
  (isSet f .detectType → isSet f .customField ∨ isSet f .noField) ∧
  -- (4) at most one of LOCK, RWLOCK, VOLATILE
  (([Flag.lock, .rwlock, .volatile_].filter (isSet f)).length ≤ 1) ∧
  -- (5) MUTABLE excludes PRIV_SET and REFERENCE
  (isSet f .mutable_ → ∀ y ∈ [Flag.privSet, .reference], isSet f y = false) ∧
  -- (6) NOT_CONSTEXPR excludes OVERRIDE
  (isSet f .notConstexpr → isSet f .override_ = false) ∧
  -- (7) NO_COPYING excludes NO_SETTERS, PASS_BY_VALUE, READ_ONLY
  (isSet f .noCopying → ∀ y ∈ [Flag.noSetters, .passByValue, .readOnly],
      isSet f y = false) ∧
  -- (8) NO_FIELD excludes VOLATILE
  (isSet f .noField → isSet f .volatile_ = false) ∧
  -- (9) OVERRIDE excludes LOCK, RWLOCK, VIRTUAL
  (isSet f .override_ → ∀ y ∈ [Flag.lock, .rwlock, .virtual_], isSet f y = false) ∧
  -- (10) PASS_BY_VALUE excludes REFERENCE
  (isSet f .passByValue → isSet f .reference = false) ∧
  -- (11) PRIVATE excludes PRIV_SET
  (isSet f .private_ → isSet f .privSet = false) ∧
  -- (12) PRIV_SET excludes NO_SETTERS and REFERENCE
  (isSet f .privSet → ∀ y ∈ [Flag.noSetters, .reference], isSet f y = false) ∧
  -- (13) READ_ONLY excludes seven flags
  (isSet f .readOnly → ∀ y ∈ [Flag.lock, .mutable_, .noSetters, .privSet, .reference,
      .rwlock, .volatile_], isSet f y = false) ∧
  -- (14) VIRTUAL excludes VOLATILE
  (isSet f .virtual_ → isSet f .volatile_ = false)

/-! ## Reading a macro name back -/

/-- Cuts a text at every underscore; `acc` holds, reversed, the characters of the
piece being read. -/
def splitUnderscore (acc : List Char) : List Char → List (List Char)
  | [] => [acc.reverse]
  | c :: cs =>
    if c = '_' then acc.reverse :: splitUnderscore [] cs
    else splitUnderscore (c :: acc) cs

/-- The suffix tokens `write_macro_name` appends for a mask, without their leading
underscore, in the order of the nineteen tests of the source. -/
def suffix_tokens (f : features) : List (List Char) :=
  (if test f ABSTRACT then ["AB".data] else [])
  ++ (if test f CUSTOM_FIELD then ["CF".data] else [])
  ++ (if test f DETECT_TYPE then ["DT".data] else [])
  ++ (if test f EXCEPTIONS then ["EX".data] else [])
  ++ (if test f LOCK then ["LOCK".data] else [])
  ++ (if test f MUTABLE then ["MUTABLE".data] else [])
  ++ (if test f NOT_CONSTEXPR then ["NC".data] else [])
  ++ (if test f NO_COPYING then ["NCP".data] else [])
  ++ (if test f NO_FIELD then ["NF".data] else [])
  ++ (if test f NO_SETTERS then ["NS".data] else [])
  ++ (if test f OVERRIDE then ["OV".data] else [])
  ++ (if test f PASS_BY_VALUE then ["PBV".data] else [])
  ++ (if test f PRIVATE then ["PRIV".data] else [])
  ++ (if test f PRIV_SET then ["PRIVSET".data] else [])
  ++ (if test f READ_ONLY then ["RO".data] else [])
  ++ (if test f REFERENCE then ["REF".data] else [])
  ++ (if test f RWLOCK then ["RWLOCK".data] else [])
  ++ (if test f VOLATILE then ["VOLATILE".data] else [])
  ++ (if test f VIRTUAL then ["VT".data] else [])

/-- Writes each token behind an underscore and concatenates. -/
def underscored (toks : List (List Char)) : List Char :=
  (toks.map (fun t => '_' :: t)).flatten

/-- The suffix token of a flag in a macro name (lines 207-244), without its
leading underscore. -/
def Flag.token : Flag → List Char
  | .abstract => "AB".data
  | .customField => "CF".data
  | .detectType => "DT".data
  | .exceptions => "EX".data
  | .lock => "LOCK".data
  | .mutable_ => "MUTABLE".data
  | .notConstexpr => "NC".data
  | .noCopying => "NCP".data
  | .noField => "NF".data
  | .noSetters => "NS".data
  | .override_ => "OV".data
  | .passByValue => "PBV".data
  | .private_ => "PRIV".data
  | .privSet => "PRIVSET".data
  | .readOnly => "RO".data
  | .reference => "REF".data
  | .rwlock => "RWLOCK".data
  | .volatile_ => "VOLATILE".data
  | .virtual_ => "VT".data

/-! ## Spec-side vocabulary for the validator and the parameter list -/

/-- Spec §4.2: every pair of flags listed as conflicting, one entry per `X excludes
Y` and one per pair drawn from LOCK, RWLOCK, VOLATILE. -/
def conflicting_pairs : List (Flag × Flag) :=
  [(.abstract, .customField), (.abstract, .detectType), (.abstract, .lock),
   (.abstract, .notConstexpr), (.abstract, .noField), (.abstract, .override_),
   (.abstract, .rwlock), (.abstract, .volatile_), (.abstract, .virtual_),
   (.customField, .noField), (.customField, .volatile_),
   (.lock, .rwlock), (.lock, .volatile_), (.rwlock, .volatile_),
   (.mutable_, .privSet), (.mutable_, .reference),
   (.notConstexpr, .override_),
   (.noCopying, .noSetters), (.noCopying, .passByValue), (.noCopying, .readOnly),
   (.noField, .volatile_),
   (.override_, .lock), (.override_, .rwlock), (.override_, .virtual_),
   (.passByValue, .reference),
   (.private_, .privSet),
   (.privSet, .noSetters), (.privSet, .reference),
   (.readOnly, .lock), (.readOnly, .mutable_), (.readOnly, .noSetters),
   (.readOnly, .privSet), (.readOnly, .reference), (.readOnly, .rwlock),
   (.readOnly, .volatile_),
   (.virtual_, .volatile_)]

/-- The flags that occur in a pair of `conflicting_pairs`: all but EXCEPTIONS. -/
def conflict_flags : List Flag :=
  [.abstract, .customField, .detectType, .lock, .mutable_, .notConstexpr, .noCopying,
   .noField, .noSetters, .override_, .passByValue, .private_, .privSet, .readOnly,
   .reference, .rwlock, .volatile_, .virtual_]

/-- Spec §4.3 (b): the parameters of the macro of a mask, in order. -/
def macro_parameters (f : features) : List String :=
  ["Name"]
  ++ (if isSet f .detectType then [] else ["Type"])
  ++ (if isSet f .customField then ["Field"] else [])

/-! ## Spec-side vocabulary for the macro body (spec §4.4) -/

/-- The six body fragments, named as in spec §4.4. -/
inductive Fragment
  | field | constGetter | nonconstGetter | copySetter | moveSetter | lockAccessor
  deriving DecidableEq, Repr

/-- The fixed order of the fragments in a macro body. -/
def fragment_order : List Fragment :=
  [.field, .constGetter, .nonconstGetter, .copySetter, .moveSetter, .lockAccessor]

/-- The emitter of the source that belongs to a fragment. -/
def Fragment.declare (f : features) : Fragment → Bool → String × Bool
  | .field => declare_field f
  | .constGetter => declare_const_getter f
  | .nonconstGetter => declare_nonconst_getter f
  | .copySetter => declare_setter f
  | .moveSetter => declare_move_setter f
  | .lockAccessor => declare_lock f

/-- The text of a fragment, as its emitter writes it after `begin_item`. -/
def Fragment.item (f : features) : Fragment → String
  | .field => field_item f
  | .constGetter => const_getter_item f
  | .nonconstGetter => nonconst_getter_item f
  | .copySetter => setter_item f
  | .moveSetter => move_setter_item f
  | .lockAccessor => lock_item f

/-- Spec §4.4: the condition under which a fragment is emitted. -/
def Fragment.gate (f : features) : Fragment → Bool
  | .field => !(isSet f .abstract) && !(isSet f .customField) && !(isSet f .noField)
  | .constGetter => !(isSet f .mutable_)
  | .nonconstGetter => !(isSet f .readOnly) && !(isSet f .reference)
  | .copySetter =>
    !(isSet f .noCopying) && !(isSet f .noSetters) && !(isSet f .readOnly)
      && !(isSet f .reference)
  | .moveSetter =>
    !(isSet f .noSetters) && !(isSet f .passByValue) && !(isSet f .readOnly)
      && !(isSet f .reference)
  | .lockAccessor => isSet f .lock || isSet f .rwlock

/-- The fragments of a mask whose gate holds, in the fixed order. -/
def emitted_fragments (f : features) : List Fragment :=
  fragment_order.filter (Fragment.gate f)

/-- Spec §4.4: a body made of the given fragment texts. Every fragment follows a
line continuation; every fragment but the first also follows one blank separator
line. -/
def layout_items : List String → String
  | [] => ""
  | x :: xs =>
    " \\\n" ++ x ++ String.join (xs.map (fun y => " \\\n" ++ "  \\\n" ++ y))

/-- A text without any brace, so without a `{ ... }` body. -/
def brace_free (s : String) : Prop := '\x7b' ∉ s.data ∧ '\x7d' ∉ s.data

/-- The line of the documentation block that announces a declared field
(line 152). -/
def declares_field_line : String :=
  " * The property declares its field whose name is <<Name>>_.\n"

/-! ## Line continuation (spec §4.4) -/

/-- Scans a text whose preceding character is `prev`: true when every newline of
the text comes directly after a backslash. -/
def continued_from (prev : Char) : List Char → Bool
  | [] => true
  | c :: cs => (c != '\n' || prev == '\\') && continued_from c cs

/-- Every newline of the text comes directly after a backslash of the text. -/
def continued (s : String) : Prop := continued_from ' ' s.data = true

/-- The text `s` contains the text `m`. -/
def contains (s m : String) : Prop := ∃ pre post : String, s = pre ++ m ++ post

/-- The rules of `features_valid`, read on an arbitrary property `P` of flags
(`P x` stands for "flag `x` is set"). -/
def no_conflict (P : Flag → Prop) : Prop :=
  ¬(P .abstract ∧ (P .customField ∨ P .detectType ∨ P .lock ∨ P .notConstexpr
      ∨ P .noField ∨ P .override_ ∨ P .rwlock ∨ P .volatile_ ∨ P .virtual_))
  ∧ ¬(P .customField ∧ (P .noField ∨ P .volatile_))
  ∧ ¬(P .detectType ∧ ¬(P .customField ∨ P .noField))
  ∧ (¬(P .lock ∧ P .rwlock) ∧ ¬(P .lock ∧ P .volatile_) ∧ ¬(P .rwlock ∧ P .volatile_))
  ∧ ¬(P .mutable_ ∧ (P .privSet ∨ P .reference))
  ∧ ¬(P .notConstexpr ∧ P .override_)
  ∧ ¬(P .noCopying ∧ (P .noSetters ∨ P .passByValue ∨ P .readOnly))
  ∧ ¬(P .noField ∧ P .volatile_)
  ∧ ¬(P .override_ ∧ (P .lock ∨ P .rwlock ∨ P .virtual_))
  ∧ ¬(P .passByValue ∧ P .reference)
  ∧ ¬(P .private_ ∧ P .privSet)
  ∧ ¬(P .privSet ∧ (P .noSetters ∨ P .reference))
  ∧ ¬(P .readOnly ∧ (P .lock ∨ P .mutable_ ∨ P .noSetters ∨ P .privSet ∨ P .reference
      ∨ P .rwlock ∨ P .volatile_))
  ∧ ¬(P .virtual_ ∧ P .volatile_)

/-! ## Driver (gen_property.cc, lines 576-592) -/

/-- The loop `for (features f = 0; f <= FEATURES_MAX; f ++) body (f);` of `main`,
entered with the loop variable equal to `f` and the state of the program equal to
`s`; the result is the state when the loop is left. The increment is the one of
`std::uint64_t`. -/
def main_loop {σ : Type} (body : features → σ → σ) (f : features) (s : σ) : σ :=
  if f ≤ FEATURES_MAX then
    main_loop body ((f + 1) % 2 ^ 64) (body f s)
  else
    s
termination_by FEATURES_MAX + 1 - f
decreasing_by
  have key : ∀ n : Nat, n ≤ 524287 → 524287 + 1 - (n + 1) % 2 ^ 64 < 524287 + 1 - n := by
    intro n hn
    omega
  exact key f (by assumption)

/-- The text `main` writes before the loop (lines 579-586). -/
def main_header : String :=
  "// Generated definitions for <faster/core/property.hh>.\n"
  ++ "// Do not edit this file! Edit gen_property.cc instead.\n"
  ++ ("#ifndef __FASTER_CORE_PROPERTY_HH__\n"
      ++ "# error Do not include <faster/core/property.tcc> alone! "
      ++ "Use <faster/core/property.hh> instead.\n"
      ++ "#endif\n"
      ++ "\n")

/-- The whole output of the program: the header, then the loop whose body appends
`generate f`. -/
def main : String :=
  main_loop (fun f out => out ++ generate f) 0 main_header

/-! ## Texts without `noexcept` -/

/-- Scans a text for the two letters `oe` in a row; `prev_o` says whether the
character before the text is an `o`. True when the pair does not occur. -/
def oe_scan (prev_o : Bool) : List Char → Bool
  | [] => true
  | c :: cs => !(prev_o && c == 'e') && oe_scan (c == 'o') cs

/-- The text holds no `oe`, does not start with `e` and does not end with `o`: no
`oe` can arise inside it or where it meets another such text. -/
def oe_free (s : String) : Prop :=
  oe_scan true s.data = true ∧ s.data.getLast? ≠ some 'o'

/-! ## Counting the masks of the enumeration -/

/-- The masks of `[0, FEATURES_MAX]` that `features_valid` accepts. -/
def valid_masks : Finset features :=
  (Finset.range (FEATURES_MAX + 1)).filter (fun f => features_valid f = true)

/-- The masks of `[0, FEATURES_MAX]` that `features_valid` rejects. -/
def invalid_masks : Finset features :=
  (Finset.range (FEATURES_MAX + 1)).filter (fun f => features_valid f = false)

/-- Flips the three bits LOCK, RWLOCK and VOLATILE of a mask. -/
def flip_locks (f : features) : features := f ^^^ (LOCK ||| RWLOCK ||| VOLATILE)

/-! ## Lines of a text and the blank separator line -/

/-- The lines of a text: the pieces between its newlines. -/
def text_lines : List Char → List (List Char)
  | [] => [[]]
  | c :: cs =>
    if c = '\n' then [] :: text_lines cs
    else (c :: (text_lines cs).headD []) :: (text_lines cs).tail

/-- The blank separator line that `begin_item` writes before every item but the
first (line 289), without its newline: two spaces and a backslash. -/
def separator_line : List Char := "  \\".data

/-- How many lines of a text are blank separator lines. -/
def separator_count (s : String) : Nat := (text_lines s.data).count separator_line

/-- A character of which the separator line is made: a blank or a backslash. -/
def plain (c : Char) : Bool := c == ' ' || c == '\\'

/-- A line that holds a character other than a blank and a backslash. -/
def wordy (l : List Char) : Bool := l.any (fun c => !plain c)

/-- Scans a text; `w` says whether the line the text starts in already holds a
character other than blank and backslash. True when every newline of the text
ends a line that holds such a character. -/
def lines_marked (w : Bool) : List Char → Bool
  | [] => true
  | c :: cs =>
    if c = '\n' then w && lines_marked false cs
    else lines_marked (w || !plain c) cs

/-- Whether, after the text, the current line holds a character other than blank
and backslash. -/
def last_marked (w : Bool) : List Char → Bool
  | [] => w
  | c :: cs =>
    if c = '\n' then last_marked false cs
    else last_marked (w || !plain c) cs

/-- Every line of the text, the first continuing a line in state `w`, holds a
character other than blank and backslash. -/
def flows (w : Bool) (s : String) : Prop :=
  lines_marked w s.data = true ∧ last_marked w s.data = true

/-- The text holds no newline. -/
def one_line (s : String) : Prop := '\n' ∉ s.data

/-! ## Searching a text for a given text -/

/-- Whether `pat` occurs in a text: at its start, or in what follows its first
character. -/
def occurs_in (pat : List Char) : List Char → Bool
  | [] => pat.isEmpty
  | c :: cs => pat.isPrefixOf (c :: cs) || occurs_in pat cs

/-- The access label of the non-const accessors of a mask: `private:` if PRIVATE
or PRIV_SET is set, `public:` otherwise. -/
def writable_label (f : features) : String :=
  if isSet f .private_ || isSet f .privSet then "  private: \\\n" else "  public: \\\n"

/-! ## Bit-level lemmas -/

theorem lor_eq_zero_iff (x y : Nat) : x ||| y = 0 ↔ x = 0 ∧ y = 0 := by
  constructor
  · intro h
    have hbits : ∀ i, (x.testBit i || y.testBit i) = false := by
      intro i
      rw [← Nat.testBit_or, h, Nat.zero_testBit]
    constructor <;> apply Nat.eq_of_testBit_eq <;> intro i <;>
      have := hbits i <;> simp_all
  · rintro ⟨rfl, rfl⟩
    rfl

theorem test_or (f a b : features) : test f (a ||| b) = (test f a || test f b) := by
  unfold test
  rw [Nat.and_or_distrib_left, Bool.eq_iff_iff]
  simp only [Bool.or_eq_true, bne_iff_ne, ne_eq, lor_eq_zero_iff]
  tauto

theorem test_two_pow (f i : Nat) : test f (2 ^ i) = f.testBit i := by
  unfold test
  rw [Nat.and_two_pow]
  cases f.testBit i <;> simp

theorem test_flag (f : features) (x : Flag) : test f x.mask = isSet f x := by
  unfold isSet
  rw [← test_two_pow]
  cases x <;> rfl

theorem reject_else_eq_true (p : Prop) [Decidable p] (r : Bool) :
    ((if p then false else r) = true) ↔ (¬ p ∧ r = true) := by
  by_cases h : p <;> simp [h]

/-- C1: for every mask `f` (in particular every mask of `[0, 2^19 - 1]`),
`features_valid f` is true if and only if `f` violates none of the fourteen rules
of spec §4.2, stated on the set of flags that `f` denotes. -/
theorem features_valid_iff_rules_hold (f : features) :
    features_valid f = true ↔ rules_hold f := by
  unfold features_valid rules_hold bang2
  simp only [test_or, List.mem_cons, List.mem_singleton, forall_eq_or_imp, forall_eq,
    List.not_mem_nil, false_imp_iff, implies_true, and_true, List.filter_cons,
    List.filter_nil]
  have e : ∀ x : Flag, test f x.mask = isSet f x := test_flag f
  have e0 := e .abstract; have e1 := e .customField; have e2 := e .detectType
  have e4 := e .lock; have e5 := e .mutable_
  have e6 := e .notConstexpr; have e7 := e .noCopying; have e8 := e .noField
  have e9 := e .noSetters; have e10 := e .override_; have e11 := e .passByValue
  have e12 := e .private_; have e13 := e .privSet; have e14 := e .readOnly
  have e15 := e .reference; have e16 := e .rwlock; have e17 := e .volatile_
  have e18 := e .virtual_
  simp only [Flag.mask] at e0 e1 e2 e4 e5 e6 e7 e8 e9 e10 e11 e12 e13 e14 e15 e16 e17 e18
  rw [e0, e1, e2, e4, e5, e6, e7, e8, e9, e10, e11, e12, e13, e14, e15, e16, e17, e18]
  clear e0 e1 e2 e4 e5 e6 e7 e8 e9 e10 e11 e12 e13 e14 e15 e16 e17 e18 e
  generalize isSet f .abstract = b0
  generalize isSet f .customField = b1
  generalize isSet f .detectType = b2
  generalize isSet f .lock = b4
  generalize isSet f .mutable_ = b5
  generalize isSet f .notConstexpr = b6
  generalize isSet f .noCopying = b7
  generalize isSet f .noField = b8
  generalize isSet f .noSetters = b9
  generalize isSet f .override_ = b10
  generalize isSet f .passByValue = b11
  generalize isSet f .private_ = b12
  generalize isSet f .privSet = b13
  generalize isSet f .readOnly = b14
  generalize isSet f .reference = b15
  generalize isSet f .rwlock = b16
  generalize isSet f .volatile_ = b17
  generalize isSet f .virtual_ = b18
  simp only [reject_else_eq_true, and_true]
  refine and_congr ?_ (and_congr ?_ (and_congr ?_ (and_congr ?_ (and_congr ?_ (and_congr ?_
    (and_congr ?_ (and_congr ?_ (and_congr ?_ (and_congr ?_ (and_congr ?_ (and_congr ?_
    (and_congr ?_ ?_))))))))))))
  · cases b0 <;> simp [and_assoc]
  · cases b1 <;> simp
  · cases b2 <;> cases b1 <;> simp
  · cases b4 <;> cases b16 <;> cases b17 <;> simp
  · cases b5 <;> simp
  · cases b6 <;> simp
  · cases b7 <;> simp [and_assoc]
  · cases b8 <;> simp
  · cases b10 <;> simp [and_assoc]
  · cases b11 <;> simp
  · cases b12 <;> simp
  · cases b13 <;> simp
  · cases b14 <;> simp [and_assoc]
  · cases b18 <;> simp

/-! ## The macro name determines the mask -/

theorem splitUnderscore_append (t : List Char) (ht : '_' ∉ t) (acc r : List Char) :
    splitUnderscore acc (t ++ r) = splitUnderscore (t.reverse ++ acc) r := by
  induction t generalizing acc with
  | nil => rfl
  | cons c cs ih =>
    have hc : c ≠ '_' := fun h => ht (h ▸ List.mem_cons_self _ _)
    have hcs : '_' ∉ cs := fun h => ht (List.mem_cons_of_mem _ h)
    simp only [List.cons_append, splitUnderscore, hc, if_false, List.reverse_cons,
      List.append_assoc, List.singleton_append]
    exact ih hcs (c :: acc)

theorem splitUnderscore_underscored (toks : List (List Char))
    (h : ∀ t ∈ toks, '_' ∉ t) (acc : List Char) :
    splitUnderscore acc (underscored toks) = acc.reverse :: toks := by
  induction toks generalizing acc with
  | nil => rfl
  | cons t ts ih =>
    have ht : '_' ∉ t := h t (List.mem_cons_self _ _)
    have hts : ∀ u ∈ ts, '_' ∉ u := fun u hu => h u (List.mem_cons_of_mem _ hu)
    have e : underscored (t :: ts) = '_' :: (t ++ underscored ts) := by
      simp [underscored]
    rw [e]
    simp only [splitUnderscore, if_true]
    rw [splitUnderscore_append t ht, ih hts]
    simp

theorem underscored_append (a b : List (List Char)) :
    underscored (a ++ b) = underscored a ++ underscored b := by
  simp [underscored]

theorem suffix_data (b : Bool) (s : String) (t : List Char) (h : s.data = '_' :: t) :
    (if b = true then s else "").data = underscored (if b = true then [t] else []) := by
  cases b <;> simp [underscored, h]

theorem write_macro_name_data (f : features) :
    (write_macro_name f).data = "FASTER_PROPERTY".data ++ underscored (suffix_tokens f) := by
  unfold write_macro_name suffix_tokens
  simp only [String.data_append, underscored_append, List.append_assoc]
  rw [suffix_data _ "_AB" "AB".data rfl,
    suffix_data _ "_CF" "CF".data rfl,
    suffix_data _ "_DT" "DT".data rfl,
    suffix_data _ "_EX" "EX".data rfl,
    suffix_data _ "_LOCK" "LOCK".data rfl,
    suffix_data _ "_MUTABLE" "MUTABLE".data rfl,
    suffix_data _ "_NC" "NC".data rfl,
    suffix_data _ "_NCP" "NCP".data rfl,
    suffix_data _ "_NF" "NF".data rfl,
    suffix_data _ "_NS" "NS".data rfl,
    suffix_data _ "_OV" "OV".data rfl,
    suffix_data _ "_PBV" "PBV".data rfl,
    suffix_data _ "_PRIV" "PRIV".data rfl,
    suffix_data _ "_PRIVSET" "PRIVSET".data rfl,
    suffix_data _ "_RO" "RO".data rfl,
    suffix_data _ "_REF" "REF".data rfl,
    suffix_data _ "_RWLOCK" "RWLOCK".data rfl,
    suffix_data _ "_VOLATILE" "VOLATILE".data rfl,
    suffix_data _ "_VT" "VT".data rfl]

theorem mem_ite_singleton (b : Bool) (x t : List Char) :
    t ∈ (if b = true then [x] else []) ↔ b = true ∧ t = x := by
  cases b <;> simp

theorem mem_suffix_tokens (f : features) (t : List Char) :
    t ∈ suffix_tokens f ↔ ∃ x : Flag, test f x.mask = true ∧ t = x.token := by
  unfold suffix_tokens
  simp only [List.mem_append, mem_ite_singleton, or_assoc]
  constructor
  · rintro (⟨h, e⟩ | ⟨h, e⟩ | ⟨h, e⟩ | ⟨h, e⟩ | ⟨h, e⟩ | ⟨h, e⟩ | ⟨h, e⟩ | ⟨h, e⟩ | ⟨h, e⟩ | ⟨h, e⟩ | ⟨h, e⟩ | ⟨h, e⟩ | ⟨h, e⟩ | ⟨h, e⟩ | ⟨h, e⟩ | ⟨h, e⟩ | ⟨h, e⟩ | ⟨h, e⟩ | ⟨h, e⟩)
    · exact ⟨.abstract, h, e⟩
    · exact ⟨.customField, h, e⟩
    · exact ⟨.detectType, h, e⟩
    · exact ⟨.exceptions, h, e⟩
    · exact ⟨.lock, h, e⟩
    · exact ⟨.mutable_, h, e⟩
    · exact ⟨.notConstexpr, h, e⟩
    · exact ⟨.noCopying, h, e⟩
    · exact ⟨.noField, h, e⟩
    · exact ⟨.noSetters, h, e⟩
    · exact ⟨.override_, h, e⟩
    · exact ⟨.passByValue, h, e⟩
    · exact ⟨.private_, h, e⟩
    · exact ⟨.privSet, h, e⟩
    · exact ⟨.readOnly, h, e⟩
    · exact ⟨.reference, h, e⟩
    · exact ⟨.rwlock, h, e⟩
    · exact ⟨.volatile_, h, e⟩
    · exact ⟨.virtual_, h, e⟩
  · rintro ⟨x, h, e⟩
    cases x <;> simp only [Flag.mask] at h <;> simp only [Flag.token] at e <;> simp [h, e]

theorem token_no_underscore (x : Flag) : '_' ∉ x.token := by
  cases x <;> decide

theorem token_injective (x y : Flag) (h : x.token = y.token) : x = y := by
  cases x <;> cases y <;> first | rfl | exact absurd h (by decide)

theorem token_mem_iff (f : features) (x : Flag) :
    x.token ∈ suffix_tokens f ↔ isSet f x = true := by
  rw [mem_suffix_tokens, ← test_flag]
  constructor
  · rintro ⟨y, h, e⟩
    rw [token_injective x y e]
    exact h
  · intro h
    exact ⟨x, h, rfl⟩

theorem splitUnderscore_cons (acc r : List Char) :
    splitUnderscore acc ('_' :: r) = acc.reverse :: splitUnderscore [] r := by
  simp [splitUnderscore]

theorem splitUnderscore_base (a b : List Char) (ha : '_' ∉ a) (hb : '_' ∉ b)
    (toks : List (List Char)) (h : ∀ t ∈ toks, '_' ∉ t) :
    splitUnderscore [] ((a ++ '_' :: b) ++ underscored toks) = a :: b :: toks := by
  rw [List.append_assoc, splitUnderscore_append a ha, List.cons_append,
    splitUnderscore_cons, splitUnderscore_append b hb, splitUnderscore_underscored toks h]
  simp

theorem suffix_tokens_of_name (f : features) :
    splitUnderscore [] (write_macro_name f).data
      = "FASTER".data :: "PROPERTY".data :: suffix_tokens f := by
  rw [write_macro_name_data]
  have e : "FASTER_PROPERTY".data = "FASTER".data ++ '_' :: "PROPERTY".data := by decide
  rw [e]
  apply splitUnderscore_base _ _ (by decide) (by decide)
  intro t ht
  obtain ⟨x, -, rfl⟩ := (mem_suffix_tokens f t).1 ht
  exact token_no_underscore x

theorem isSet_eq_of_name_eq (f g : features)
    (h : write_macro_name f = write_macro_name g) (x : Flag) : isSet f x = isSet g x := by
  have hf := suffix_tokens_of_name f
  rw [h, suffix_tokens_of_name g] at hf
  have e : suffix_tokens g = suffix_tokens f := by
    simpa using hf
  rw [Bool.eq_iff_iff, ← token_mem_iff, ← token_mem_iff, e]

theorem eq_of_isSet_eq (f g : features) (hf : f < 2 ^ 19) (hg : g < 2 ^ 19)
    (h : ∀ x : Flag, isSet f x = isSet g x) : f = g := by
  apply Nat.eq_of_testBit_eq
  intro i
  by_cases hi : i < 19
  · unfold isSet at h
    interval_cases i <;> first | exact h .abstract | exact h .customField | exact h .detectType | exact h .exceptions | exact h .lock | exact h .mutable_ | exact h .notConstexpr | exact h .noCopying | exact h .noField | exact h .noSetters | exact h .override_ | exact h .passByValue | exact h .private_ | exact h .privSet | exact h .readOnly | exact h .reference | exact h .rwlock | exact h .volatile_ | exact h .virtual_
  · have hp : 2 ^ 19 ≤ 2 ^ i := Nat.pow_le_pow_right (by decide) (Nat.le_of_not_lt hi)
    rw [Nat.testBit_lt_two_pow (Nat.lt_of_lt_of_le hf hp),
      Nat.testBit_lt_two_pow (Nat.lt_of_lt_of_le hg hp)]

theorem write_macro_name_injective (f g : features) (hf : f < 2 ^ 19) (hg : g < 2 ^ 19)
    (h : write_macro_name f = write_macro_name g) : f = g :=
  eq_of_isSet_eq f g hf hg (isSet_eq_of_name_eq f g h)

/-! ## Validator and namer: the claims -/

/-- C2: the macro name is injective on valid masks. For masks `m1`, `m2` in
`[0, FEATURES_MAX]` that are both valid and different, `write_macro_name` writes
different strings. -/
theorem macro_name_injective_on_valid (m1 m2 : features)
    (h1 : m1 ≤ FEATURES_MAX) (h2 : m2 ≤ FEATURES_MAX)
    (_v1 : features_valid m1 = true) (_v2 : features_valid m2 = true) (hne : m1 ≠ m2) :
    write_macro_name m1 ≠ write_macro_name m2 := by
  intro h
  have b1 : m1 < 2 ^ 19 := Nat.lt_of_le_of_lt h1 (by decide)
  have b2 : m2 < 2 ^ 19 := Nat.lt_of_le_of_lt h2 (by decide)
  exact hne (write_macro_name_injective m1 m2 b1 b2 h)

/-- Witness for C2 at the valid masks `0` and `LOCK`. -/
theorem macro_name_injective_on_valid_witness :
    (0 : features) ≤ FEATURES_MAX ∧ LOCK ≤ FEATURES_MAX
      ∧ features_valid 0 = true ∧ features_valid LOCK = true ∧ (0 : features) ≠ LOCK
      ∧ write_macro_name 0 ≠ write_macro_name LOCK :=
  ⟨by decide, by decide, by decide, by decide, by decide,
   macro_name_injective_on_valid 0 LOCK (by decide) (by decide) (by decide) (by decide)
     (by decide)⟩

/-- C3: for every pair of flags that spec §4.2 lists as conflicting, the mask with
exactly these two bits set is invalid. -/
theorem conflicting_pair_invalid (p : Flag × Flag) (hp : p ∈ conflicting_pairs) :
    features_valid (p.1.mask ||| p.2.mask) = false := by
  revert p
  decide

/-- Witness for C3 at the pair READ_ONLY, MUTABLE of the spec's example. -/
theorem conflicting_pair_invalid_witness :
    (Flag.readOnly, Flag.mutable_) ∈ conflicting_pairs
      ∧ features_valid (READ_ONLY ||| MUTABLE) = false :=
  ⟨by decide, conflicting_pair_invalid (Flag.readOnly, Flag.mutable_) (by decide)⟩

/-- C4 as stated fails: DETECT_TYPE takes part in a conflict rule, and the mask
with only DETECT_TYPE set is invalid. -/
theorem single_detect_type_invalid :
    Flag.detectType ∈ conflict_flags ∧ features_valid Flag.detectType.mask = false := by
  decide

/-- C4, amended: for every flag that takes part in a conflict rule other than
DETECT_TYPE, the mask with only that flag set is valid; the mask with only
DETECT_TYPE set is invalid, and becomes valid together with CUSTOM_FIELD or with
NO_FIELD. -/
theorem single_flag_valid (x : Flag) (hx : x ∈ conflict_flags) (hd : x ≠ Flag.detectType) :
    features_valid x.mask = true
      ∧ features_valid DETECT_TYPE = false
      ∧ features_valid (DETECT_TYPE ||| CUSTOM_FIELD) = true
      ∧ features_valid (DETECT_TYPE ||| NO_FIELD) = true := by
  refine ⟨?_, by decide, by decide, by decide⟩
  cases x <;> first | decide | exact absurd rfl hd

/-- Witness for the amended C4 at READ_ONLY, the spec's example. -/
theorem single_flag_valid_witness :
    Flag.readOnly ∈ conflict_flags ∧ Flag.readOnly ≠ Flag.detectType
      ∧ features_valid READ_ONLY = true :=
  ⟨by decide, by decide, (single_flag_valid Flag.readOnly (by decide) (by decide)).1⟩

/-! ## Generation of one mask -/

/-- C6: the parameter list written by `write_macro_args f` is `(`, the
comma-separated parameters of spec §4.3 (Name, then Type unless DETECT_TYPE is
set, then Field when CUSTOM_FIELD is set), and `)`. -/
theorem write_macro_args_eq_parameters (f : features) :
    write_macro_args f = "(" ++ ", ".intercalate (macro_parameters f) ++ ")"
      ∧ ("Name" ∈ macro_parameters f)
      ∧ ("Type" ∈ macro_parameters f ↔ isSet f .detectType = false)
      ∧ ("Field" ∈ macro_parameters f ↔ isSet f .customField = true)
      ∧ (∀ p ∈ macro_parameters f, p = "Name" ∨ p = "Type" ∨ p = "Field") := by
  have e1 : test f DETECT_TYPE = isSet f .detectType := test_flag f .detectType
  have e2 : test f CUSTOM_FIELD = isSet f .customField := test_flag f .customField
  unfold write_macro_args macro_parameters
  rw [e1, e2]
  cases isSet f .detectType <;> cases isSet f .customField <;> decide

/-- C7: the six macros the conformance tests instantiate are generated with the
names and the two-parameter signature the tests use. -/
theorem conformance_macros :
    features_valid 0 = true ∧ features_valid LOCK = true ∧ features_valid RWLOCK = true
      ∧ features_valid ABSTRACT = true ∧ features_valid OVERRIDE = true
      ∧ features_valid PASS_BY_VALUE = true
      ∧ write_macro_name 0 ++ write_macro_args 0 = "FASTER_PROPERTY(Name, Type)"
      ∧ write_macro_name LOCK ++ write_macro_args LOCK = "FASTER_PROPERTY_LOCK(Name, Type)"
      ∧ write_macro_name RWLOCK ++ write_macro_args RWLOCK
          = "FASTER_PROPERTY_RWLOCK(Name, Type)"
      ∧ write_macro_name ABSTRACT ++ write_macro_args ABSTRACT
          = "FASTER_PROPERTY_AB(Name, Type)"
      ∧ write_macro_name OVERRIDE ++ write_macro_args OVERRIDE
          = "FASTER_PROPERTY_OV(Name, Type)"
      ∧ write_macro_name PASS_BY_VALUE ++ write_macro_args PASS_BY_VALUE
          = "FASTER_PROPERTY_PBV(Name, Type)" := by
  decide

/-! ## The macro body: gates and order of the fragments -/

theorem begin_item_ne_empty (first_item : Bool) (s : String) :
    (begin_item first_item).1 ++ s ≠ "" := by
  intro e
  have hl := congrArg String.length e
  rw [String.length_append] at hl
  have h0 : "".length = 0 := rfl
  have hb : 0 < (begin_item first_item).1.length := by
    cases first_item <;> decide
  omega

theorem gate_eq_test (f : features) (x : Fragment) :
    Fragment.gate f x = match x with
      | .field => !(test f (ABSTRACT ||| CUSTOM_FIELD ||| NO_FIELD))
      | .constGetter => !(test f MUTABLE)
      | .nonconstGetter => !(test f (READ_ONLY ||| REFERENCE))
      | .copySetter => !(test f (NO_COPYING ||| NO_SETTERS ||| READ_ONLY ||| REFERENCE))
      | .moveSetter => !(test f (NO_SETTERS ||| PASS_BY_VALUE ||| READ_ONLY ||| REFERENCE))
      | .lockAccessor => test f (LOCK ||| RWLOCK) := by
  have e : ∀ y : Flag, isSet f y = test f y.mask := fun y => (test_flag f y).symm
  cases x <;> simp only [Fragment.gate, e, Flag.mask, test_or, Bool.not_or]

theorem declare_eq (f : features) (x : Fragment) (first_item : Bool) :
    Fragment.declare f x first_item =
      if Fragment.gate f x then
        ((begin_item first_item).1 ++ Fragment.item f x, (begin_item first_item).2)
      else ("", first_item) := by
  rw [gate_eq_test]
  cases x <;>
    simp only [Fragment.declare, Fragment.item, declare_field, declare_const_getter,
      declare_nonconst_getter, declare_setter, declare_move_setter, declare_lock] <;>
    split <;> simp_all

theorem declare_items_eq_layout (f : features) :
    declare_items f = layout_items ((emitted_fragments f).map (Fragment.item f)) := by
  have h1 := declare_eq f .field
  have h2 := declare_eq f .constGetter
  have h3 := declare_eq f .nonconstGetter
  have h4 := declare_eq f .copySetter
  have h5 := declare_eq f .moveSetter
  have h6 := declare_eq f .lockAccessor
  simp only [Fragment.declare] at h1 h2 h3 h4 h5 h6
  unfold declare_items emitted_fragments fragment_order
  simp only [h1, h2, h3, h4, h5, h6, List.filter_cons, List.filter_nil]
  clear h1 h2 h3 h4 h5 h6
  generalize Fragment.gate f .field = g1
  generalize Fragment.gate f .constGetter = g2
  generalize Fragment.gate f .nonconstGetter = g3
  generalize Fragment.gate f .copySetter = g4
  generalize Fragment.gate f .moveSetter = g5
  generalize Fragment.gate f .lockAccessor = g6
  cases g1 <;> cases g2 <;> cases g3 <;> cases g4 <;> cases g5 <;> cases g6 <;>
    simp [begin_item, layout_items, String.join, String.append_assoc]

/-- C8: `declare_macro f` emits the six body fragments in the fixed order field,
const getter, non-const getter, copy setter, move setter, lock accessor, each
exactly when its gate of spec §4.4 holds: an emitter writes text if and only if
the gate of its fragment holds, and the body is the layout of the texts of the
fragments whose gate holds, taken in the fixed order. Mask 0 emits the first five
fragments and no lock accessor; a mask with READ_ONLY emits no non-const getter
and no setter. -/
theorem declare_macro_fragments (f : features) :
    (∀ (x : Fragment) (first_item : Bool),
        (Fragment.declare f x first_item).1 ≠ "" ↔ Fragment.gate f x = true)
      ∧ declare_macro f
          = write_macro_comment f ++ "#define " ++ write_macro_name f
              ++ write_macro_args f
              ++ layout_items ((emitted_fragments f).map (Fragment.item f)) ++ "\n"
      ∧ emitted_fragments f = fragment_order.filter (Fragment.gate f)
      ∧ fragment_order
          = [.field, .constGetter, .nonconstGetter, .copySetter, .moveSetter,
             .lockAccessor]
      ∧ emitted_fragments 0
          = [.field, .constGetter, .nonconstGetter, .copySetter, .moveSetter]
      ∧ (isSet f .readOnly = true → ∀ first_item : Bool,
          declare_nonconst_getter f first_item = ("", first_item)
            ∧ declare_setter f first_item = ("", first_item)
            ∧ declare_move_setter f first_item = ("", first_item)) := by
  refine ⟨?_, ?_, rfl, rfl, by decide, ?_⟩
  · intro x first_item
    rw [declare_eq]
    cases h : Fragment.gate f x
    · simp
    · simpa using begin_item_ne_empty first_item (Fragment.item f x)
  · unfold declare_macro
    rw [declare_items_eq_layout]
  · intro h first_item
    have e3 := declare_eq f .nonconstGetter first_item
    have e4 := declare_eq f .copySetter first_item
    have e5 := declare_eq f .moveSetter first_item
    simp only [Fragment.declare, Fragment.gate, h] at e3 e4 e5
    simp [e3, e4, e5]

/-- Witness for C8 at the mask READ_ONLY. -/
theorem declare_macro_fragments_witness :
    isSet READ_ONLY .readOnly = true
      ∧ declare_nonconst_getter READ_ONLY true = ("", true)
      ∧ declare_setter READ_ONLY true = ("", true)
      ∧ declare_move_setter READ_ONLY true = ("", true) :=
  ⟨by decide, (declare_macro_fragments READ_ONLY).2.2.2.2.2 (by decide) true⟩

/-! ## Abstract accessors and the field declaration -/

theorem brace_free_append (a b : String) (ha : brace_free a) (hb : brace_free b) :
    brace_free (a ++ b) := by
  unfold brace_free at *
  simp only [String.data_append, List.mem_append, not_or]
  exact ⟨⟨ha.1, hb.1⟩, ⟨ha.2, hb.2⟩⟩

theorem brace_free_ite (c : Prop) [Decidable c] (a b : String) (ha : brace_free a)
    (hb : brace_free b) : brace_free (if c then a else b) := by
  split <;> assumption

theorem brace_free_write_type (f : features) : brace_free (write_type f) := by
  unfold write_type write_field
  repeat' first
    | apply brace_free_append
    | apply brace_free_ite
    | (unfold brace_free; decide)

theorem const_getter_abstract (f : features) (h : test f ABSTRACT = true) :
    (∃ pre, const_getter_item f = pre ++ " = 0;") ∧ brace_free (const_getter_item f) := by
  unfold const_getter_item
  simp only [h, if_true]
  refine ⟨⟨_, rfl⟩, ?_⟩
  repeat' first
    | apply brace_free_append
    | apply brace_free_ite
    | exact brace_free_write_type f
    | (unfold brace_free; decide)

theorem nonconst_getter_abstract (f : features) (h : test f ABSTRACT = true) :
    (∃ pre, nonconst_getter_item f = pre ++ " = 0;")
      ∧ brace_free (nonconst_getter_item f) := by
  unfold nonconst_getter_item
  simp only [h, if_true]
  refine ⟨⟨_, rfl⟩, ?_⟩
  repeat' first
    | apply brace_free_append
    | apply brace_free_ite
    | exact brace_free_write_type f
    | (unfold brace_free; decide)

theorem declare_macro_field_first (f : features) (h : Fragment.gate f .field = true) :
    ∃ post, declare_macro f
      = write_macro_comment f ++ "#define " ++ write_macro_name f ++ write_macro_args f
          ++ " \\\n" ++ field_item f ++ post := by
  have e := declare_eq f .field true
  simp only [Fragment.declare, h, if_true, begin_item, Fragment.item] at e
  unfold declare_macro declare_items
  simp only [e, String.append_assoc]
  exact ⟨_, rfl⟩

theorem field_item_ends (f : features) : ∃ d, field_item f = d ++ "Name##_;" :=
  ⟨_, rfl⟩

/-- C9: for a mask with ABSTRACT set, the macro body has no field declaration
(`declare_field` writes nothing and the field is not among the emitted fragments)
and both getter texts are pure declarations: they end in ` = 0;` and hold no
brace. For a mask with none of ABSTRACT, CUSTOM_FIELD, NO_FIELD set, the text of
`declare_macro` contains the field declaration, which ends in `Name##_;`. -/
theorem abstract_and_field_fragments (f : features) :
    (isSet f .abstract = true →
        (∀ first_item : Bool, declare_field f first_item = ("", first_item))
          ∧ Fragment.field ∉ emitted_fragments f
          ∧ (∃ pre, const_getter_item f = pre ++ " = 0;")
          ∧ brace_free (const_getter_item f)
          ∧ (∃ pre, nonconst_getter_item f = pre ++ " = 0;")
          ∧ brace_free (nonconst_getter_item f))
      ∧ (isSet f .abstract = false → isSet f .customField = false
          → isSet f .noField = false →
        (∃ post, declare_macro f
            = write_macro_comment f ++ "#define " ++ write_macro_name f
                ++ write_macro_args f ++ " \\\n" ++ field_item f ++ post)
          ∧ (∃ d, field_item f = d ++ "Name##_;")) := by
  constructor
  · intro h
    have ht : test f ABSTRACT = true := by
      rw [← h]
      exact test_flag f .abstract
    have hg : Fragment.gate f .field = false := by
      simp [Fragment.gate, h]
    refine ⟨?_, ?_, (const_getter_abstract f ht).1, (const_getter_abstract f ht).2,
      (nonconst_getter_abstract f ht).1, (nonconst_getter_abstract f ht).2⟩
    · intro first_item
      have e := declare_eq f .field first_item
      simpa [Fragment.declare, hg] using e
    · simp [emitted_fragments, hg]
  · intro ha hc hn
    have hg : Fragment.gate f .field = true := by
      simp [Fragment.gate, ha, hc, hn]
    exact ⟨declare_macro_field_first f hg, field_item_ends f⟩

/-- Witness for C9 at the masks ABSTRACT and 0. -/
theorem abstract_and_field_fragments_witness :
    isSet ABSTRACT .abstract = true
      ∧ declare_field ABSTRACT true = ("", true)
      ∧ brace_free (const_getter_item ABSTRACT)
      ∧ isSet 0 .abstract = false ∧ isSet 0 .customField = false
      ∧ isSet 0 .noField = false
      ∧ (∃ d, field_item 0 = d ++ "Name##_;") :=
  ⟨by decide, ((abstract_and_field_fragments ABSTRACT).1 (by decide)).1 true,
   ((abstract_and_field_fragments ABSTRACT).1 (by decide)).2.2.2.1,
   by decide, by decide, by decide,
   ((abstract_and_field_fragments 0).2 (by decide) (by decide) (by decide)).2⟩

set_option maxRecDepth 8000 in
/-- C10 at the mask ABSTRACT: the mask is valid, its documentation block holds
the line announcing a declared field, and `declare_field` writes no field. -/
theorem comment_field_line_at_abstract :
    features_valid ABSTRACT = true
      ∧ write_macro_comment ABSTRACT
          = "/**\n * Declares a property.\n *\n"
              ++ " * The property name is taken from the parameter Name.\n"
              ++ " * The type is taken from the parameter Type.\n"
              ++ declares_field_line
              ++ " * The property is read-write.\n"
              ++ " * The property is public.\n"
              ++ " * The property accessors are abstract.\n"
              ++ " * The property accessors are noexcept.\n"
              ++ " */\n"
      ∧ declare_field ABSTRACT true = ("", true)
      ∧ Fragment.field ∉ emitted_fragments ABSTRACT := by
  refine ⟨by decide, by rfl, by decide, by decide⟩

/-! ## Access labels of the getters -/

theorem nonconst_getter_label (f : features) :
    ∃ rest, nonconst_getter_item f
      = (if isSet f .private_ || isSet f .privSet then "  private: \\\n"
          else "  public: \\\n") ++ rest := by
  have e1 : isSet f .private_ = test f PRIVATE := (test_flag f .private_).symm
  have e2 : isSet f .privSet = test f PRIV_SET := (test_flag f .privSet).symm
  unfold nonconst_getter_item
  rw [e1, e2, ← test_or]
  simp only [String.append_assoc]
  exact ⟨_, rfl⟩

theorem const_getter_label (f : features) :
    ∃ rest, const_getter_item f
      = (if isSet f .private_ then "  private: \\\n" else "  public: \\\n") ++ rest := by
  have e1 : isSet f .private_ = test f PRIVATE := (test_flag f .private_).symm
  unfold const_getter_item
  rw [e1]
  simp only [String.append_assoc]
  exact ⟨_, rfl⟩

/-- C11 as stated fails at the mask PRIV_SET: the mask is valid, PRIVATE is not
set, the non-const getter is emitted, and its access label is `private:` while
the const getter is `public:`. -/
theorem nonconst_getter_private_at_priv_set :
    features_valid PRIV_SET = true
      ∧ isSet PRIV_SET .private_ = false
      ∧ Fragment.gate PRIV_SET .nonconstGetter = true
      ∧ declare_nonconst_getter PRIV_SET false
          = (" \\\n" ++ "  \\\n" ++ "  private: \\\n" ++ "  constexpr Type & \\\n"
              ++ "  Name () noexcept \\\n" ++ "  \x7b \\\n" ++ "    return Name##_; \\\n"
              ++ "  \x7d", false)
      ∧ const_getter_item PRIV_SET
          = "  public: \\\n" ++ "  constexpr Type const & \\\n"
              ++ "  Name () const noexcept \\\n" ++ "  \x7b \\\n"
              ++ "    return Name##_; \\\n" ++ "  \x7d" := by
  refine ⟨by decide, by decide, by decide, by rfl, by rfl⟩

/-- C11, amended: for every valid mask for which the non-const getter is emitted,
the text the emitter writes is the line continuation followed by the getter,
whose access label is `private:` if PRIVATE or PRIV_SET is set and `public:`
otherwise; the label of the const getter is `private:` if PRIVATE is set and
`public:` otherwise, so the two labels agree unless PRIV_SET is set. -/
theorem nonconst_getter_access_label (f : features)
    (_hv : features_valid f = true) (he : Fragment.gate f .nonconstGetter = true) :
    (∀ first_item : Bool, (declare_nonconst_getter f first_item).1
        = (begin_item first_item).1 ++ nonconst_getter_item f)
      ∧ (∃ rest, nonconst_getter_item f
          = (if isSet f .private_ || isSet f .privSet then "  private: \\\n"
              else "  public: \\\n") ++ rest)
      ∧ (∃ rest, const_getter_item f
          = (if isSet f .private_ then "  private: \\\n" else "  public: \\\n")
              ++ rest) := by
  refine ⟨?_, nonconst_getter_label f, const_getter_label f⟩
  intro first_item
  have e := declare_eq f .nonconstGetter first_item
  simp only [Fragment.declare, he, if_true, Fragment.item] at e
  rw [e]

/-- Witness for the amended C11 at the mask PRIV_SET. -/
theorem nonconst_getter_access_label_witness :
    features_valid PRIV_SET = true ∧ Fragment.gate PRIV_SET .nonconstGetter = true
      ∧ ∃ rest, nonconst_getter_item PRIV_SET
          = (if isSet PRIV_SET .private_ || isSet PRIV_SET .privSet then "  private: \\\n"
              else "  public: \\\n") ++ rest :=
  ⟨by decide, by decide,
   (nonconst_getter_access_label PRIV_SET (by decide) (by decide)).2.1⟩

/-! ## The macro definition is one logical line -/

theorem continued_from_mono (p : Char) (s : List Char)
    (h : continued_from ' ' s = true) : continued_from p s = true := by
  cases s with
  | nil => rfl
  | cons c cs =>
    simp only [continued_from, Bool.and_eq_true, Bool.or_eq_true] at h ⊢
    refine ⟨?_, h.2⟩
    rcases h.1 with h1 | h1
    · exact Or.inl h1
    · exact absurd h1 (by decide)

theorem continued_from_append (p : Char) (a b : List Char)
    (ha : continued_from p a = true) (hb : continued_from ' ' b = true) :
    continued_from p (a ++ b) = true := by
  induction a generalizing p with
  | nil => exact continued_from_mono p b hb
  | cons c cs ih =>
    simp only [continued_from, Bool.and_eq_true, List.cons_append] at ha ⊢
    exact ⟨ha.1, ih c ha.2⟩

theorem continued_append (a b : String) (ha : continued a) (hb : continued b) :
    continued (a ++ b) := by
  unfold continued at *
  rw [String.data_append]
  exact continued_from_append ' ' _ _ ha hb

theorem continued_ite (c : Prop) [Decidable c] (a b : String) (ha : continued a)
    (hb : continued b) : continued (if c then a else b) := by
  split <;> assumption

theorem continued_from_newline (p : Char) (pre post : List Char)
    (h : continued_from p (pre ++ '\n' :: post) = true) :
    (pre = [] ∧ p = '\\') ∨ ∃ pre', pre = pre' ++ ['\\'] := by
  induction pre generalizing p with
  | nil =>
    simp only [List.nil_append, continued_from, Bool.and_eq_true, Bool.or_eq_true] at h
    rcases h.1 with h1 | h1
    · exact absurd h1 (by decide)
    · exact Or.inl ⟨rfl, by simpa using h1⟩
  | cons c cs ih =>
    simp only [List.cons_append, continued_from, Bool.and_eq_true] at h
    rcases ih c h.2 with ⟨rfl, rfl⟩ | ⟨pre', rfl⟩
    · exact Or.inr ⟨[], rfl⟩
    · exact Or.inr ⟨c :: pre', rfl⟩

theorem continued_newline (s : String) (hs : continued s) (pre post : List Char)
    (h : s.data = pre ++ '\n' :: post) : ∃ pre', pre = pre' ++ ['\\'] := by
  unfold continued at hs
  rw [h] at hs
  rcases continued_from_newline ' ' pre post hs with ⟨-, h2⟩ | h2
  · exact absurd h2 (by decide)
  · exact h2

theorem continued_item (f : features) (x : Fragment) : continued (Fragment.item f x) := by
  cases x <;>
    simp only [Fragment.item, field_item, const_getter_item, nonconst_getter_item,
      setter_item, move_setter_item, lock_item, write_type, write_field, lock_class] <;>
    repeat' first
      | apply continued_append
      | apply continued_ite
      | (unfold continued; decide)

theorem continued_declare (f : features) (x : Fragment) (first_item : Bool) :
    continued (Fragment.declare f x first_item).1 := by
  rw [declare_eq]
  split
  · apply continued_append _ _ _ (continued_item f x)
    cases first_item <;> (unfold continued; decide)
  · show continued ""
    unfold continued; decide

theorem continued_declare_items (f : features) : continued (declare_items f) := by
  have h := continued_declare f
  unfold declare_items
  simp only []
  repeat' apply continued_append
  · exact h .field _
  · exact h .constGetter _
  · exact h .nonconstGetter _
  · exact h .copySetter _
  · exact h .moveSetter _
  · exact h .lockAccessor _

theorem continued_define_line (f : features) :
    continued ("#define " ++ write_macro_name f ++ write_macro_args f) := by
  unfold write_macro_name write_macro_args
  repeat' first
    | apply continued_append
    | apply continued_ite
    | (unfold continued; decide)

/-- C12: the macro definition is one logical line. The text of `declare_macro f`
is the documentation block, then a text `body` that starts with `#define`, then
a final newline; and every newline inside `body` comes directly after a
backslash. -/
theorem macro_is_one_logical_line (f : features) :
    ∃ body : String,
      declare_macro f = write_macro_comment f ++ body ++ "\n"
        ∧ body = "#define " ++ write_macro_name f ++ write_macro_args f ++ declare_items f
        ∧ ∀ pre post : List Char, body.data = pre ++ '\n' :: post →
            ∃ pre', pre = pre' ++ ['\\'] := by
  refine ⟨_, ?_, rfl, ?_⟩
  · unfold declare_macro
    simp only [String.append_assoc]
  · apply continued_newline
    exact continued_append _ _ (continued_define_line f) (continued_declare_items f)

/-! ## Validity as a condition on the flag set -/

theorem test_eq_isSet (f : features) :
    test f ABSTRACT = isSet f .abstract ∧ test f CUSTOM_FIELD = isSet f .customField
      ∧ test f DETECT_TYPE = isSet f .detectType ∧ test f EXCEPTIONS = isSet f .exceptions
      ∧ test f LOCK = isSet f .lock ∧ test f MUTABLE = isSet f .mutable_
      ∧ test f NOT_CONSTEXPR = isSet f .notConstexpr ∧ test f NO_COPYING = isSet f .noCopying
      ∧ test f NO_FIELD = isSet f .noField ∧ test f NO_SETTERS = isSet f .noSetters
      ∧ test f OVERRIDE = isSet f .override_ ∧ test f PASS_BY_VALUE = isSet f .passByValue
      ∧ test f PRIVATE = isSet f .private_ ∧ test f PRIV_SET = isSet f .privSet
      ∧ test f READ_ONLY = isSet f .readOnly ∧ test f REFERENCE = isSet f .reference
      ∧ test f RWLOCK = isSet f .rwlock ∧ test f VOLATILE = isSet f .volatile_
      ∧ test f VIRTUAL = isSet f .virtual_ :=
  ⟨test_flag f .abstract, test_flag f .customField, test_flag f .detectType,
   test_flag f .exceptions, test_flag f .lock, test_flag f .mutable_,
   test_flag f .notConstexpr, test_flag f .noCopying, test_flag f .noField,
   test_flag f .noSetters, test_flag f .override_, test_flag f .passByValue,
   test_flag f .private_, test_flag f .privSet, test_flag f .readOnly,
   test_flag f .reference, test_flag f .rwlock, test_flag f .volatile_,
   test_flag f .virtual_⟩

theorem valid_iff_no_conflict (f : features) :
    features_valid f = true ↔ no_conflict (fun x => isSet f x = true) := by
  obtain ⟨e0, e1, e2, -, e4, e5, e6, e7, e8, e9, e10, e11, e12, e13, e14, e15, e16, e17,
    e18⟩ := test_eq_isSet f
  unfold features_valid no_conflict bang2
  simp only [reject_else_eq_true, and_true, test_or]
  rw [e0, e1, e2, e4, e5, e6, e7, e8, e9, e10, e11, e12, e13, e14, e15, e16, e17, e18]
  refine and_congr ?_ (and_congr ?_ (and_congr ?_ (and_congr ?_ (and_congr ?_ (and_congr ?_
    (and_congr ?_ (and_congr ?_ (and_congr ?_ (and_congr ?_ (and_congr ?_ (and_congr ?_
    (and_congr ?_ ?_))))))))))))
  case refine_4 =>
    cases isSet f .lock <;> cases isSet f .rwlock <;> cases isSet f .volatile_ <;> simp
  all_goals simp only [Bool.and_eq_true, Bool.or_eq_true, Bool.not_eq_true', or_assoc,
    Bool.not_eq_true, Bool.or_eq_false_iff, not_or]

/-! ## Texts that contain a given text -/

theorem contains_append_left (a b m : String) (h : contains a m) : contains (a ++ b) m := by
  obtain ⟨pre, post, rfl⟩ := h
  exact ⟨pre, post ++ b, by simp only [String.append_assoc]⟩

theorem contains_append_right (a b m : String) (h : contains b m) :
    contains (a ++ b) m := by
  obtain ⟨pre, post, rfl⟩ := h
  exact ⟨a ++ pre, post, by simp only [String.append_assoc]⟩

theorem contains_tail (x m : String) : contains (x ++ m) m :=
  ⟨x, "", by simp⟩

theorem contains_tail_two (x a b m : String) (h : a ++ b = m) : contains (x ++ a ++ b) m :=
  ⟨x, "", by simp [← h, String.append_assoc]⟩

theorem contains_head (m x : String) : contains (m ++ x) m :=
  ⟨"", x, by simp⟩

/-! ## Mutable properties -/

theorem mutable_excludes (f : features) (hv : features_valid f = true)
    (hm : isSet f .mutable_ = true) :
    isSet f .readOnly = false ∧ isSet f .reference = false ∧ isSet f .privSet = false := by
  have h := (valid_iff_no_conflict f).1 hv
  obtain ⟨-, -, -, -, h5, -, -, -, -, -, -, -, h13, -⟩ := h
  simp only [hm, true_and, not_or, Bool.not_eq_true] at h5
  have h13b : ¬ (isSet f .readOnly = true) := fun hr => h13 ⟨hr, by simp [hm]⟩
  exact ⟨by simpa using h13b, h5.2, h5.1⟩

/-- C13: a MUTABLE property has no const getter and only const methods. For every
valid mask with MUTABLE set: the const getter is not emitted; the non-const
getter is emitted and is const-qualified (`Name () const`); the copy setter and
the move setter are const-qualified; the lock accessor is const-qualified; and
the field declaration starts, after its access label, with `mutable`. -/
theorem mutable_property (f : features) (hv : features_valid f = true)
    (hm : isSet f .mutable_ = true) :
    (∀ first_item : Bool, declare_const_getter f first_item = ("", first_item))
      ∧ (∀ first_item : Bool, (declare_nonconst_getter f first_item).1
          = (begin_item first_item).1 ++ nonconst_getter_item f)
      ∧ contains (nonconst_getter_item f) "  Name () const"
      ∧ contains (setter_item f) "Name##_new_value) const"
      ∧ contains (move_setter_item f) " &&Name##_new_value) const"
      ∧ contains (lock_item f) "  Name##_lock () const noexcept"
      ∧ (∃ rest, field_item f = "  private: \\\n" ++ "  " ++ "mutable " ++ rest) := by
  have ht : test f MUTABLE = true := by rw [← hm]; exact test_flag f .mutable_
  obtain ⟨hro, href, -⟩ := mutable_excludes f hv hm
  refine ⟨?_, ?_, ?_, ?_, ?_, ?_, ?_⟩
  · intro first_item
    simp [declare_const_getter, ht]
  · intro first_item
    have e := declare_eq f .nonconstGetter first_item
    simp only [Fragment.declare, Fragment.gate, hro, href, Fragment.item] at e
    simpa using congrArg Prod.fst e
  · unfold nonconst_getter_item
    simp only [ht, if_true]
    apply contains_append_left
    apply contains_append_left
    apply contains_append_left
    exact contains_tail_two _ _ _ _ (by decide)
  · unfold setter_item
    simp only [ht, if_true]
    apply contains_append_left
    apply contains_append_left
    apply contains_append_left
    apply contains_append_left
    apply contains_append_left
    exact contains_tail_two _ _ _ _ (by decide)
  · unfold move_setter_item
    simp only [ht, if_true]
    apply contains_append_left
    apply contains_append_left
    apply contains_append_left
    apply contains_append_left
    apply contains_append_left
    exact contains_tail_two _ _ _ _ (by decide)
  · unfold lock_item
    apply contains_append_left
    apply contains_append_left
    apply contains_append_left
    apply contains_append_right
    exact ⟨"", " \\\n", by decide⟩
  · unfold field_item
    simp only [ht, if_true, String.append_assoc]
    exact ⟨_, rfl⟩

/-- Witness for C13 at the mask MUTABLE. -/
theorem mutable_property_witness :
    features_valid MUTABLE = true ∧ isSet MUTABLE .mutable_ = true
      ∧ declare_const_getter MUTABLE true = ("", true)
      ∧ contains (nonconst_getter_item MUTABLE) "  Name () const" :=
  ⟨by decide, by decide, (mutable_property MUTABLE (by decide) (by decide)).1 true,
   (mutable_property MUTABLE (by decide) (by decide)).2.2.1⟩

/-! ## The lock fragment -/

theorem lock_item_of_class (f : features) (c : String) (hc : lock_class f = c) :
    lock_item f
      = "  private: \\\n" ++ "  mutable " ++ c ++ " Name##_lock_; \\\n"
          ++ (if isSet f .private_ then "  private: \\\n" else "  public: \\\n")
          ++ "  " ++ (if isSet f .notConstexpr then "" else "constexpr ")
          ++ c ++ " & \\\n" ++ "  Name##_lock () const noexcept \\\n"
          ++ "  \x7b \\\n" ++ "    return Name##_lock_; \\\n" ++ "  \x7d" := by
  have e1 : test f PRIVATE = isSet f .private_ := test_flag f .private_
  have e2 : test f NOT_CONSTEXPR = isSet f .notConstexpr := test_flag f .notConstexpr
  unfold lock_item
  rw [hc, e1, e2]
  cases isSet f .private_ <;> cases isSet f .notConstexpr <;> rfl

theorem rwlock_excludes_lock (f : features) (hv : features_valid f = true)
    (hr : isSet f .rwlock = true) : isSet f .lock = false := by
  have h := (valid_iff_no_conflict f).1 hv
  obtain ⟨-, -, -, ⟨h4, -, -⟩, -⟩ := h
  cases hl : isSet f .lock
  · rfl
  · exact absurd ⟨hl, hr⟩ h4

theorem declare_lock_writes (f : features) (hg : Fragment.gate f .lockAccessor = true)
    (first_item : Bool) :
    declare_lock f first_item
      = ((begin_item first_item).1 ++ lock_item f, (begin_item first_item).2) := by
  have e := declare_eq f .lockAccessor first_item
  simp only [Fragment.declare, hg, if_true, Fragment.item] at e
  exact e

theorem declare_macro_contains_lock (f : features)
    (hg : Fragment.gate f .lockAccessor = true) :
    contains ( declare_macro f) (lock_item f) := by
  unfold declare_macro declare_items
  simp only []
  apply contains_append_left
  apply contains_append_right
  apply contains_append_right
  rw [declare_lock_writes f hg]
  exact contains_tail _ _

/-- C14: for every valid mask with LOCK set, `declare_lock` writes the lock
fragment (the line continuation followed by the lock text, which is part of the
text of `declare_macro`), and the lock text declares a
`mutable std::mutex Name##_lock_` field and an accessor `Name##_lock` returning
`std::mutex &`; for every valid mask with RWLOCK set the same holds with
`std::shared_mutex`. In both cases the accessor is `constexpr` exactly when
NOT_CONSTEXPR is not set, and it is always `const noexcept`. -/
theorem lock_fragment (f : features) (hv : features_valid f = true) :
    (isSet f .lock = true →
        Fragment.gate f .lockAccessor = true
          ∧ (∀ first_item : Bool, declare_lock f first_item
              = ((begin_item first_item).1 ++ lock_item f, (begin_item first_item).2))
          ∧ contains ( declare_macro f) (lock_item f)
          ∧ lock_item f
              = "  private: \\\n" ++ "  mutable std::mutex Name##_lock_; \\\n"
                  ++ (if isSet f .private_ then "  private: \\\n" else "  public: \\\n")
                  ++ "  " ++ (if isSet f .notConstexpr then "" else "constexpr ")
                  ++ "std::mutex & \\\n" ++ "  Name##_lock () const noexcept \\\n"
                  ++ "  \x7b \\\n" ++ "    return Name##_lock_; \\\n" ++ "  \x7d")
      ∧ (isSet f .rwlock = true →
        Fragment.gate f .lockAccessor = true
          ∧ (∀ first_item : Bool, declare_lock f first_item
              = ((begin_item first_item).1 ++ lock_item f, (begin_item first_item).2))
          ∧ contains ( declare_macro f) (lock_item f)
          ∧ lock_item f
              = "  private: \\\n" ++ "  mutable std::shared_mutex Name##_lock_; \\\n"
                  ++ (if isSet f .private_ then "  private: \\\n" else "  public: \\\n")
                  ++ "  " ++ (if isSet f .notConstexpr then "" else "constexpr ")
                  ++ "std::shared_mutex & \\\n" ++ "  Name##_lock () const noexcept \\\n"
                  ++ "  \x7b \\\n" ++ "    return Name##_lock_; \\\n" ++ "  \x7d") := by
  constructor
  · intro hl
    have ht : test f LOCK = true := by rw [← hl]; exact test_flag f .lock
    have hc : lock_class f = "std::mutex" := by simp [lock_class, ht]
    have hg : Fragment.gate f .lockAccessor = true := by simp [Fragment.gate, hl]
    refine ⟨hg, declare_lock_writes f hg, declare_macro_contains_lock f hg, ?_⟩
    rw [lock_item_of_class f _ hc]
    cases isSet f .private_ <;> cases isSet f .notConstexpr <;> rfl
  · intro hr
    have hl := rwlock_excludes_lock f hv hr
    have ht : test f LOCK = false := by rw [← hl]; exact test_flag f .lock
    have hc : lock_class f = "std::shared_mutex" := by simp [lock_class, ht]
    have hg : Fragment.gate f .lockAccessor = true := by simp [Fragment.gate, hr]
    refine ⟨hg, declare_lock_writes f hg, declare_macro_contains_lock f hg, ?_⟩
    rw [lock_item_of_class f _ hc]
    cases isSet f .private_ <;> cases isSet f .notConstexpr <;> rfl

/-- Witness for C14 at the masks LOCK and RWLOCK: `declare_lock` writes the lock
text of each. -/
theorem lock_fragment_witness :
    features_valid LOCK = true ∧ isSet LOCK .lock = true
      ∧ declare_lock LOCK false
          = ((begin_item false).1 ++ lock_item LOCK, (begin_item false).2)
      ∧ contains ( declare_macro LOCK) (lock_item LOCK)
      ∧ features_valid RWLOCK = true ∧ isSet RWLOCK .rwlock = true
      ∧ declare_lock RWLOCK false
          = ((begin_item false).1 ++ lock_item RWLOCK, (begin_item false).2)
      ∧ contains ( declare_macro RWLOCK) (lock_item RWLOCK) :=
  ⟨by decide, by decide,
   ((lock_fragment LOCK (by decide)).1 (by decide)).2.1 false,
   ((lock_fragment LOCK (by decide)).1 (by decide)).2.2.1,
   by decide, by decide,
   ((lock_fragment RWLOCK (by decide)).2 (by decide)).2.1 false,
   ((lock_fragment RWLOCK (by decide)).2 (by decide)).2.2.1⟩

/-! ## The driver -/

theorem main_loop_step {σ : Type} (body : features → σ → σ) (f : features) (s : σ)
    (h : f ≤ FEATURES_MAX) : main_loop body f s = main_loop body (f + 1) (body f s) := by
  rw [main_loop]
  have key : ∀ n : Nat, n ≤ 524287 → (n + 1) % 2 ^ 64 = n + 1 := by
    intro n hn
    omega
  have e : (f + 1) % 2 ^ 64 = f + 1 := key f h
  rw [if_pos h, e]

theorem main_loop_exit {σ : Type} (body : features → σ → σ) (f : features) (s : σ)
    (h : ¬ f ≤ FEATURES_MAX) : main_loop body f s = s := by
  rw [main_loop, if_neg h]
theorem features_max_eq : FEATURES_MAX = (524287 : Nat) := rfl

theorem main_loop_range {σ : Type} (body : features → σ → σ) (n : Nat) :
    ∀ (f : Nat) (s : σ), f + n = 524288 →
      main_loop body f s = (List.range' f n).foldl (fun t g => body g t) s := by
  induction n with
  | zero =>
    intro f s h
    have hf : ¬ f ≤ FEATURES_MAX := by
      rw [features_max_eq]
      omega
    rw [main_loop_exit body f s hf]
    rfl
  | succ n ih =>
    intro f s h
    have hf : f ≤ FEATURES_MAX := by
      rw [features_max_eq]
      omega
    rw [main_loop_step body f s hf, ih (f + 1) (body f s) (by omega)]
    rfl

theorem main_loop_eq_foldl {σ : Type} (body : features → σ → σ) (s : σ) :
    main_loop body 0 s
      = (List.range (FEATURES_MAX + 1)).foldl (fun t g => body g t) s := by
  rw [main_loop_range body 524288 0 s (by omega), List.range_eq_range']
  rfl

theorem join_append (a b : List String) :
    String.join (a ++ b) = String.join a ++ String.join b := by
  have h : ∀ (l : List String) (acc : String),
      List.foldl (fun r s => r ++ s) acc l = acc ++ String.join l := by
    intro l
    induction l with
    | nil => intro acc; simp [String.join]
    | cons x xs ih =>
      intro acc
      simp only [String.join, List.foldl_cons] at ih ⊢
      rw [ih (acc ++ x), ih ("" ++ x)]
      simp [String.append_assoc]
  simp only [String.join, List.foldl_append]
  rw [h b]
  rfl

theorem join_cons (x : String) (l : List String) :
    String.join (x :: l) = x ++ String.join l := by
  have := join_append [x] l
  simpa [String.join] using this

theorem foldl_generate (l : List features) (out : String) :
    l.foldl (fun t g => t ++ generate g) out = out ++ String.join (l.map generate) := by
  induction l generalizing out with
  | nil => simp [String.join]
  | cons x xs ih =>
    rw [List.foldl_cons, ih, List.map_cons, join_cons, String.append_assoc]

theorem foldl_trace (l : List features) (acc : List features) :
    l.foldl (fun t g => t ++ [g]) acc = acc ++ l := by
  induction l generalizing acc with
  | nil => simp
  | cons x xs ih => rw [List.foldl_cons, ih]; simp

theorem main_eq : main = main_header ++ String.join ((List.range (FEATURES_MAX + 1)).map generate) := by
  unfold main
  rw [main_loop_eq_foldl, foldl_generate]
theorem range'_split (s n k : Nat) (h : k < n) :
    List.range' s n = List.range' s k ++ (s + k) :: List.range' (s + k + 1) (n - k - 1) := by
  have e : n = (n - k - 1 + 1) + k := by omega
  conv_lhs => rw [e]
  rw [← List.range'_append_1 s k (n - k - 1 + 1), List.range'_succ]

theorem range_split_two (n m1 m2 : Nat) (h1 : m1 < m2) (h2 : m2 < n) :
    List.range n
      = List.range m1 ++ m1 :: (List.range' (m1 + 1) (m2 - m1 - 1)
          ++ m2 :: List.range' (m2 + 1) (n - m2 - 1)) := by
  rw [List.range_eq_range', range'_split 0 n m1 (by omega),
    range'_split (0 + m1 + 1) (n - m1 - 1) (m2 - m1 - 1) (by omega), List.range_eq_range']
  have e1 : 0 + m1 = m1 := by omega
  have e2 : m1 + 1 + (m2 - m1 - 1) = m2 := by omega
  have e3 : n - m1 - 1 - (m2 - m1 - 1) - 1 = n - m2 - 1 := by omega
  rw [e1, e2, e3]

set_option maxRecDepth 16000 in
/-- C15: the loop of the driver terminates having run its body once for each
mask 0, 1, ..., FEATURES_MAX (= 2^19 - 1), in ascending order; the output of the
program is the fixed header (two banner comment lines, then the inclusion-guard
check and a blank line) followed by the concatenation of `generate f` in
ascending order of `f`; so for `m1 < m2` the text of `m1` stands before the text
of `m2`. -/
theorem driver_output :
    FEATURES_MAX = 2 ^ 19 - 1
      ∧ (∀ (σ : Type) (body : features → σ → σ) (s : σ),
          main_loop body 0 s
            = (List.range (FEATURES_MAX + 1)).foldl (fun t g => body g t) s)
      ∧ main_loop (fun g t => t ++ [g]) 0 [] = List.range (FEATURES_MAX + 1)
      ∧ main = main_header ++ String.join ((List.range (FEATURES_MAX + 1)).map generate)
      ∧ (∀ m1 m2 : features, m1 < m2 → m2 ≤ FEATURES_MAX →
          main = main_header ++ String.join ((List.range m1).map generate)
            ++ generate m1
            ++ String.join ((List.range' (m1 + 1) (m2 - m1 - 1)).map generate)
            ++ generate m2
            ++ String.join ((List.range' (m2 + 1) (FEATURES_MAX - m2)).map generate))
      ∧ main_header
          = "// Generated definitions for <faster/core/property.hh>.\n// Do not edit this file! Edit gen_property.cc instead.\n#ifndef __FASTER_CORE_PROPERTY_HH__\n# error Do not include <faster/core/property.tcc> alone! Use <faster/core/property.hh> instead.\n#endif\n\n"
      ∧ text_lines main_header.data
          = ["// Generated definitions for <faster/core/property.hh>.".data,
             "// Do not edit this file! Edit gen_property.cc instead.".data,
             "#ifndef __FASTER_CORE_PROPERTY_HH__".data,
             ("# error Do not include <faster/core/property.tcc> alone! "
               ++ "Use <faster/core/property.hh> instead.").data,
             "#endif".data,
             "".data,
             "".data]
      ∧ (∃ rest : String, main
          = "// Generated definitions for <faster/core/property.hh>.\n"
              ++ "// Do not edit this file! Edit gen_property.cc instead.\n"
              ++ "#ifndef __FASTER_CORE_PROPERTY_HH__\n"
              ++ ("# error Do not include <faster/core/property.tcc> alone! "
                   ++ "Use <faster/core/property.hh> instead.\n")
              ++ "#endif\n" ++ "\n" ++ generate 0 ++ rest) := by
  have hh : main_header
      = "// Generated definitions for <faster/core/property.hh>.\n"
          ++ "// Do not edit this file! Edit gen_property.cc instead.\n"
          ++ "#ifndef __FASTER_CORE_PROPERTY_HH__\n"
          ++ ("# error Do not include <faster/core/property.tcc> alone! "
               ++ "Use <faster/core/property.hh> instead.\n")
          ++ "#endif\n" ++ "\n" := by
    decide
  refine ⟨by decide, fun σ body s => main_loop_eq_foldl body s, ?_, main_eq, ?_, by decide,
    by decide, ?_⟩
  · rw [main_loop_eq_foldl, foldl_trace]
    exact List.nil_append _
  · intro m1 m2 h1 h2
    have h3 : (m2 : Nat) < FEATURES_MAX + 1 := Nat.lt_succ_of_le h2
    have key : ∀ a b : Nat, a + 1 - b - 1 = a - b := by
      intro a b
      omega
    rw [main_eq, range_split_two (FEATURES_MAX + 1) m1 m2 h1 h3, key FEATURES_MAX m2]
    simp only [List.map_append, List.map_cons, join_append, join_cons, String.append_assoc]
  · have hr : List.range (FEATURES_MAX + 1) = 0 :: List.range' 1 FEATURES_MAX := by
      rw [List.range_eq_range', List.range'_succ]
    rw [main_eq, hr, List.map_cons, join_cons, ← hh, ← String.append_assoc]
    exact ⟨_, rfl⟩

/-! ## The `noexcept` specifier of the getters -/

theorem oe_scan_mono (p : Bool) (s : List Char) (h : oe_scan true s = true) :
    oe_scan p s = true := by
  cases s with
  | nil => rfl
  | cons c cs =>
    simp only [oe_scan, Bool.and_eq_true, Bool.true_and] at h ⊢
    refine ⟨?_, h.2⟩
    cases p
    · rfl
    · simpa using h.1

theorem oe_scan_append (p : Bool) (a b : List Char) (ha : oe_scan p a = true)
    (hl : a.getLast? ≠ some 'o') (hb : oe_scan true b = true) :
    oe_scan p (a ++ b) = true := by
  induction a generalizing p with
  | nil => exact oe_scan_mono p b hb
  | cons c cs ih =>
    simp only [oe_scan, Bool.and_eq_true, List.cons_append] at ha ⊢
    refine ⟨ha.1, ?_⟩
    cases cs with
    | nil =>
      have hc : (c == 'o') = false := by
        simpa using hl
      rw [hc]
      exact oe_scan_mono false b hb
    | cons d ds =>
      apply ih _ ha.2
      simpa [List.getLast?_cons_cons] using hl

theorem getLast?_append_ne (a b : List Char) (ha : a.getLast? ≠ some 'o')
    (hb : b.getLast? ≠ some 'o') : (a ++ b).getLast? ≠ some 'o' := by
  cases b with
  | nil => simpa using ha
  | cons c cs =>
    rw [List.getLast?_append_of_ne_nil _ (by simp)]
    exact hb

theorem oe_free_append (a b : String) (ha : oe_free a) (hb : oe_free b) :
    oe_free (a ++ b) := by
  unfold oe_free at *
  rw [String.data_append]
  exact ⟨oe_scan_append true _ _ ha.1 ha.2 hb.1, getLast?_append_ne _ _ ha.2 hb.2⟩

theorem oe_free_ite (c : Prop) [Decidable c] (a b : String) (ha : oe_free a)
    (hb : oe_free b) : oe_free (if c then a else b) := by
  split <;> assumption

theorem oe_scan_pair (p : Bool) (pre post : List Char) :
    oe_scan p (pre ++ 'o' :: 'e' :: post) = false := by
  induction pre generalizing p with
  | nil => simp [oe_scan]
  | cons c cs ih => simp [oe_scan, ih]

theorem oe_free_not_contains (s : String) (h : oe_free s) : ¬ contains s " noexcept" := by
  rintro ⟨pre, post, rfl⟩
  have e : (pre ++ " noexcept" ++ post).data
      = (pre.data ++ " n".data) ++ 'o' :: 'e' :: ("xcept".data ++ post.data) := by
    simp [String.data_append]
  have h1 := h.1
  rw [e, oe_scan_pair] at h1
  exact absurd h1 (by decide)
theorem oe_free_write_type (f : features) : oe_free (write_type f) := by
  unfold write_type write_field
  repeat' first
    | apply oe_free_append
    | apply oe_free_ite
    | (unfold oe_free; decide)

theorem noexcept_cond (f : features) :
    (!(test f (ABSTRACT ||| OVERRIDE ||| VIRTUAL) && test f EXCEPTIONS)) = true
      ↔ ¬(isSet f .exceptions = true
          ∧ (isSet f .abstract = true ∨ isSet f .override_ = true
              ∨ isSet f .virtual_ = true)) := by
  obtain ⟨e0, -, -, e3, -, -, -, -, -, -, e10, -, -, -, -, -, -, -, e18⟩ := test_eq_isSet f
  rw [test_or, test_or, e0, e3, e10, e18]
  cases isSet f .exceptions <;> cases isSet f .abstract <;> cases isSet f .override_ <;>
    cases isSet f .virtual_ <;> simp

theorem const_getter_noexcept (f : features) :
    contains (const_getter_item f) " noexcept"
      ↔ ¬(isSet f .exceptions = true
          ∧ (isSet f .abstract = true ∨ isSet f .override_ = true
              ∨ isSet f .virtual_ = true)) := by
  rw [← noexcept_cond]
  constructor
  · intro hc
    by_contra hn
    apply oe_free_not_contains _ _ hc
    unfold const_getter_item write_field
    rw [if_neg hn]
    repeat' first
      | apply oe_free_append
      | apply oe_free_ite
      | exact oe_free_write_type f
      | (unfold oe_free; decide)
  · intro h
    unfold const_getter_item
    rw [if_pos h]
    apply contains_append_left
    apply contains_append_left
    exact contains_tail _ _

theorem nonconst_getter_noexcept (f : features) :
    contains (nonconst_getter_item f) " noexcept"
      ↔ ¬(isSet f .exceptions = true
          ∧ (isSet f .abstract = true ∨ isSet f .override_ = true
              ∨ isSet f .virtual_ = true)) := by
  rw [← noexcept_cond]
  constructor
  · intro hc
    by_contra hn
    apply oe_free_not_contains _ _ hc
    unfold nonconst_getter_item write_field
    rw [if_neg hn]
    repeat' first
      | apply oe_free_append
      | apply oe_free_ite
      | exact oe_free_write_type f
      | (unfold oe_free; decide)
  · intro h
    unfold nonconst_getter_item
    rw [if_pos h]
    apply contains_append_left
    apply contains_append_left
    exact contains_tail _ _

/-- C17: for every mask, the text of the const getter and the text of the
non-const getter contain the `noexcept` specifier if and only if it is not the
case that EXCEPTIONS is set together with one of ABSTRACT, OVERRIDE, VIRTUAL. In
particular a mask with EXCEPTIONS set and none of these three still has
`noexcept` getters. -/
theorem getter_noexcept (f : features) :
    (contains (const_getter_item f) " noexcept"
        ↔ ¬(isSet f .exceptions = true
            ∧ (isSet f .abstract = true ∨ isSet f .override_ = true
                ∨ isSet f .virtual_ = true)))
      ∧ (contains (nonconst_getter_item f) " noexcept"
        ↔ ¬(isSet f .exceptions = true
            ∧ (isSet f .abstract = true ∨ isSet f .override_ = true
                ∨ isSet f .virtual_ = true)))
      ∧ (isSet f .exceptions = true → isSet f .abstract = false
          → isSet f .override_ = false → isSet f .virtual_ = false →
          contains (const_getter_item f) " noexcept"
            ∧ contains (nonconst_getter_item f) " noexcept") := by
  refine ⟨const_getter_noexcept f, nonconst_getter_noexcept f, ?_⟩
  intro _ ha ho hv
  constructor
  · rw [const_getter_noexcept]
    simp [ha, ho, hv]
  · rw [nonconst_getter_noexcept]
    simp [ha, ho, hv]

/-- Witness for C17 at the mask EXCEPTIONS, whose getters are `noexcept`, and at
EXCEPTIONS with VIRTUAL, whose const getter is not. -/
theorem getter_noexcept_witness :
    isSet EXCEPTIONS .exceptions = true
      ∧ contains (const_getter_item EXCEPTIONS) " noexcept"
      ∧ contains (nonconst_getter_item EXCEPTIONS) " noexcept"
      ∧ ¬ contains (const_getter_item (EXCEPTIONS ||| VIRTUAL)) " noexcept" :=
  ⟨by decide,
   ((getter_noexcept EXCEPTIONS).2.2 (by decide) (by decide) (by decide) (by decide)).1,
   ((getter_noexcept EXCEPTIONS).2.2 (by decide) (by decide) (by decide) (by decide)).2,
   fun h => ((getter_noexcept (EXCEPTIONS ||| VIRTUAL)).1.1 h) ⟨by decide, by decide⟩⟩

/-! ## Invalid masks are the majority -/

theorem flip_locks_lt (f : features) (h : f < 2 ^ 19) : flip_locks f < 2 ^ 19 :=
  Nat.xor_lt_two_pow h (by decide)

theorem flip_locks_flip_locks (f : features) : flip_locks (flip_locks f) = f :=
  Nat.xor_cancel_right _ _

theorem isSet_flip_locks (f : features) :
    isSet (flip_locks f) .lock = !isSet f .lock
      ∧ isSet (flip_locks f) .rwlock = !isSet f .rwlock
      ∧ isSet (flip_locks f) .volatile_ = !isSet f .volatile_ := by
  unfold isSet flip_locks
  simp only [Nat.testBit_xor]
  have h4 : (LOCK ||| RWLOCK ||| VOLATILE).testBit Flag.lock.bit = true := by decide
  have h16 : (LOCK ||| RWLOCK ||| VOLATILE).testBit Flag.rwlock.bit = true := by decide
  have h17 : (LOCK ||| RWLOCK ||| VOLATILE).testBit Flag.volatile_.bit = true := by decide
  rw [h4, h16, h17]
  simp

theorem flip_locks_invalid (f : features) (h : features_valid f = true) :
    features_valid (flip_locks f) = false := by
  obtain ⟨-, -, -, ⟨h1, h2, h3⟩, -⟩ := (valid_iff_no_conflict f).1 h
  cases hv : features_valid (flip_locks f)
  · rfl
  · obtain ⟨-, -, -, ⟨g1, g2, g3⟩, -⟩ := (valid_iff_no_conflict (flip_locks f)).1 hv
    obtain ⟨e1, e2, e3⟩ := isSet_flip_locks f
    simp only [e1, e2, e3] at g1 g2 g3
    simp only [] at h1 h2 h3
    revert h1 h2 h3 g1 g2 g3
    cases isSet f .lock <;> cases isSet f .rwlock <;> cases isSet f .volatile_ <;> simp

theorem mem_valid_masks (f : features) :
    f ∈ valid_masks ↔ f < 2 ^ 19 ∧ features_valid f = true := by
  have e : FEATURES_MAX + 1 = 2 ^ 19 := by decide
  unfold valid_masks
  rw [Finset.mem_filter, Finset.mem_range, e]

theorem mem_invalid_masks (f : features) :
    f ∈ invalid_masks ↔ f < 2 ^ 19 ∧ features_valid f = false := by
  have e : FEATURES_MAX + 1 = 2 ^ 19 := by decide
  unfold invalid_masks
  rw [Finset.mem_filter, Finset.mem_range, e]

theorem valid_card_lt_invalid_card : valid_masks.card < invalid_masks.card := by
  have hinj : Set.InjOn flip_locks (valid_masks : Set features) := by
    intro a _ b _ hab
    have := congrArg flip_locks hab
    rwa [flip_locks_flip_locks, flip_locks_flip_locks] at this
  rw [← Finset.card_image_of_injOn hinj]
  apply Finset.card_lt_card
  rw [Finset.ssubset_iff_of_subset]
  · refine ⟨flip_locks (PRIVATE ||| PRIV_SET), ?_, ?_⟩
    · rw [mem_invalid_masks]
      exact ⟨by decide, by decide⟩
    · intro hmem
      obtain ⟨a, ha, hab⟩ := Finset.mem_image.1 hmem
      have e : a = PRIVATE ||| PRIV_SET := by
        have := congrArg flip_locks hab
        rwa [flip_locks_flip_locks, flip_locks_flip_locks] at this
      rw [mem_valid_masks, e] at ha
      exact absurd ha.2 (by decide)
  · intro g hg
    obtain ⟨a, ha, rfl⟩ := Finset.mem_image.1 hg
    rw [mem_valid_masks] at ha
    rw [mem_invalid_masks]
    exact ⟨flip_locks_lt a ha.1, flip_locks_invalid a ha.2⟩

theorem card_filter_add (n : Nat) :
    ((Finset.range n).filter (fun f => features_valid f = true)).card
      + ((Finset.range n).filter (fun f => features_valid f = false)).card = n := by
  have h := Finset.filter_card_add_filter_neg_card_eq_card
    (s := Finset.range n) (fun f => features_valid f = true)
  rw [Finset.card_range] at h
  have e : (Finset.range n).filter (fun f => features_valid f = false)
      = (Finset.range n).filter (fun f => ¬ features_valid f = true) := by
    apply Finset.filter_congr
    intro x _
    simp
  rw [e]
  exact h

theorem card_lt_half (n : Nat) (V I : Finset features)
    (hV : V = (Finset.range n).filter (fun f => features_valid f = true))
    (hI : I = (Finset.range n).filter (fun f => features_valid f = false))
    (hlt : V.card < I.card) (hn : n = 524288) : V.card < 262144 := by
  have h := card_filter_add n
  rw [← hV, ← hI] at h
  omega

/-- C18: among the 2^19 masks of `[0, FEATURES_MAX]` the invalid ones are strictly
more than the valid ones, and fewer than 2^18 masks are valid. (Flipping the bits
LOCK, RWLOCK, VOLATILE sends every valid mask to an invalid one, and misses the
invalid mask that has these three bits and PRIVATE, PRIV_SET.) -/
theorem invalid_masks_majority :
    valid_masks.card < invalid_masks.card ∧ valid_masks.card < 2 ^ 18 := by
  have h : valid_masks.card < 262144 :=
    card_lt_half _ valid_masks invalid_masks rfl rfl valid_card_lt_invalid_card (by decide)
  exact ⟨valid_card_lt_invalid_card, h⟩

/-! ## Every valid mask has a getter -/

theorem declare_ne_empty_iff (f : features) (x : Fragment) (first_item : Bool) :
    (Fragment.declare f x first_item).1 ≠ "" ↔ Fragment.gate f x = true := by
  rw [declare_eq]
  cases h : Fragment.gate f x
  · simp
  · simpa using begin_item_ne_empty first_item (Fragment.item f x)

theorem layout_items_ne_empty (x : String) (xs : List String) :
    layout_items (x :: xs) ≠ "" := by
  intro e
  have hl := congrArg String.length e
  simp only [layout_items, String.length_append] at hl
  have h1 : " \\\n".length = 3 := by decide
  have h0 : "".length = 0 := rfl
  omega

/-- C19: no valid mask yields a macro without a getter. For every valid mask at
least one of the const getter and the non-const getter is emitted, so the macro
body of a valid mask is never empty. -/
theorem valid_mask_has_getter (f : features) (hv : features_valid f = true) :
    (Fragment.gate f .constGetter = true ∨ Fragment.gate f .nonconstGetter = true)
      ∧ (∀ first_item : Bool, (declare_const_getter f first_item).1 ≠ ""
          ∨ (declare_nonconst_getter f first_item).1 ≠ "")
      ∧ emitted_fragments f ≠ []
      ∧ declare_items f ≠ "" := by
  have hg : Fragment.gate f .constGetter = true ∨ Fragment.gate f .nonconstGetter = true := by
    cases hm : isSet f .mutable_
    · left
      simp [Fragment.gate, hm]
    · right
      obtain ⟨hro, href, -⟩ := mutable_excludes f hv hm
      simp [Fragment.gate, hro, href]
  have he : emitted_fragments f ≠ [] := by
    intro e
    have hmem : ∀ x, Fragment.gate f x = true → x ∈ emitted_fragments f := by
      intro x hx
      unfold emitted_fragments
      rw [List.mem_filter]
      exact ⟨by cases x <;> decide, hx⟩
    rcases hg with h | h
    · exact absurd (hmem _ h) (by simp [e])
    · exact absurd (hmem _ h) (by simp [e])
  refine ⟨hg, ?_, he, ?_⟩
  · intro first_item
    rcases hg with h | h
    · exact Or.inl ((declare_ne_empty_iff f .constGetter first_item).2 h)
    · exact Or.inr ((declare_ne_empty_iff f .nonconstGetter first_item).2 h)
  · rw [declare_items_eq_layout]
    cases hl : emitted_fragments f with
    | nil => exact absurd hl he
    | cons x xs => exact layout_items_ne_empty _ _

/-- Witness for C19 at the valid mask MUTABLE, which has no const getter. -/
theorem valid_mask_has_getter_witness :
    features_valid MUTABLE = true ∧ Fragment.gate MUTABLE .constGetter = false
      ∧ declare_items MUTABLE ≠ "" :=
  ⟨by decide, by decide, (valid_mask_has_getter MUTABLE (by decide)).2.2.2⟩

/-! ## Validity and removing flags -/

theorem no_conflict_mono (P Q : Flag → Prop) (h : ∀ x, Q x → P x) (hd : ¬ Q .detectType)
    (hP : no_conflict P) : no_conflict Q := by
  unfold no_conflict at *
  obtain ⟨h1, h2, -, ⟨h4a, h4b, h4c⟩, h5, h6, h7, h8, h9, h10, h11, h12, h13, h14⟩ := hP
  refine ⟨?_, ?_, ?_, ⟨?_, ?_, ?_⟩, ?_, ?_, ?_, ?_, ?_, ?_, ?_, ?_, ?_, ?_⟩
  · exact fun ⟨a, b⟩ => h1 ⟨h _ a, b.imp (h _) (Or.imp (h _) (Or.imp (h _) (Or.imp (h _)
      (Or.imp (h _) (Or.imp (h _) (Or.imp (h _) (Or.imp (h _) (h _))))))))⟩
  · exact fun ⟨a, b⟩ => h2 ⟨h _ a, b.imp (h _) (h _)⟩
  · exact fun ⟨a, _⟩ => hd a
  · exact fun ⟨a, b⟩ => h4a ⟨h _ a, h _ b⟩
  · exact fun ⟨a, b⟩ => h4b ⟨h _ a, h _ b⟩
  · exact fun ⟨a, b⟩ => h4c ⟨h _ a, h _ b⟩
  · exact fun ⟨a, b⟩ => h5 ⟨h _ a, b.imp (h _) (h _)⟩
  · exact fun ⟨a, b⟩ => h6 ⟨h _ a, h _ b⟩
  · exact fun ⟨a, b⟩ => h7 ⟨h _ a, b.imp (h _) (Or.imp (h _) (h _))⟩
  · exact fun ⟨a, b⟩ => h8 ⟨h _ a, h _ b⟩
  · exact fun ⟨a, b⟩ => h9 ⟨h _ a, b.imp (h _) (Or.imp (h _) (h _))⟩
  · exact fun ⟨a, b⟩ => h10 ⟨h _ a, h _ b⟩
  · exact fun ⟨a, b⟩ => h11 ⟨h _ a, h _ b⟩
  · exact fun ⟨a, b⟩ => h12 ⟨h _ a, b.imp (h _) (h _)⟩
  · exact fun ⟨a, b⟩ => h13 ⟨h _ a, b.imp (h _) (Or.imp (h _) (Or.imp (h _) (Or.imp (h _)
      (Or.imp (h _) (Or.imp (h _) (h _))))))⟩
  · exact fun ⟨a, b⟩ => h14 ⟨h _ a, h _ b⟩

/-- C20: validity is closed under removing flags, except for the requirement of
DETECT_TYPE. For masks `f`, `g` of `[0, FEATURES_MAX]`: if `f` is valid, every bit
set in `g` is set in `f`, and DETECT_TYPE is not set in `g`, then `g` is valid. -/
theorem valid_of_subset (f g : features) (_hf : f ≤ FEATURES_MAX) (_hg : g ≤ FEATURES_MAX)
    (hv : features_valid f = true)
    (hsub : ∀ i : Nat, g.testBit i = true → f.testBit i = true)
    (hd : isSet g .detectType = false) : features_valid g = true := by
  rw [valid_iff_no_conflict] at hv ⊢
  apply no_conflict_mono _ _ _ _ hv
  · intro x hx
    exact hsub _ hx
  · simp [hd]

/-- Witness for C20: LOCK is obtained from the valid mask LOCK | MUTABLE by removing
a flag. -/
theorem valid_of_subset_witness :
    (LOCK ||| MUTABLE : features) ≤ FEATURES_MAX ∧ (LOCK : features) ≤ FEATURES_MAX
      ∧ features_valid (LOCK ||| MUTABLE) = true
      ∧ (∀ i : Nat, LOCK.testBit i = true → (LOCK ||| MUTABLE).testBit i = true)
      ∧ isSet LOCK .detectType = false
      ∧ features_valid LOCK = true :=
  have hsub : ∀ i : Nat, LOCK.testBit i = true → (LOCK ||| MUTABLE).testBit i = true := by
    intro i h
    have e : LOCK = 2 ^ 4 := by decide
    rw [e, Nat.testBit_two_pow] at h
    have hi : 4 = i := of_decide_eq_true h
    subst hi
    decide
  ⟨by decide, by decide, by decide, hsub, by decide,
   valid_of_subset (LOCK ||| MUTABLE) LOCK (by decide) (by decide) (by decide) hsub
     (by decide)⟩

/-! ## Blank separator lines between the fragments -/

theorem text_lines_ne_nil (s : List Char) : text_lines s ≠ [] := by
  cases s with
  | nil => simp [text_lines]
  | cons c cs =>
    simp only [text_lines]
    split <;> simp

theorem text_lines_cons_newline (cs : List Char) :
    text_lines ('\n' :: cs) = [] :: text_lines cs := by
  simp [text_lines]

theorem text_lines_cons_other (c : Char) (cs : List Char) (hc : c ≠ '\n') :
    text_lines (c :: cs) = (c :: (text_lines cs).headD []) :: (text_lines cs).tail := by
  simp [text_lines, hc]

theorem text_lines_append_newline (a b : List Char) :
    text_lines (a ++ '\n' :: b) = text_lines a ++ text_lines b := by
  induction a with
  | nil => simp [text_lines]
  | cons c cs ih =>
    by_cases hc : c = '\n'
    · subst hc
      rw [List.cons_append, text_lines_cons_newline, text_lines_cons_newline, ih]
      rfl
    · rw [List.cons_append, text_lines_cons_other _ _ hc, text_lines_cons_other _ _ hc, ih]
      have h := text_lines_ne_nil cs
      cases hl : text_lines cs with
      | nil => exact absurd hl h
      | cons l ls => rfl

theorem lines_marked_cons_newline (w : Bool) (cs : List Char) :
    lines_marked w ('\n' :: cs) = (w && lines_marked false cs) := by
  simp [lines_marked]

theorem lines_marked_cons_other (w : Bool) (c : Char) (cs : List Char) (hc : c ≠ '\n') :
    lines_marked w (c :: cs) = lines_marked (w || !plain c) cs := by
  simp [lines_marked, hc]

theorem last_marked_cons_newline (w : Bool) (cs : List Char) :
    last_marked w ('\n' :: cs) = last_marked false cs := by
  simp [last_marked]

theorem last_marked_cons_other (w : Bool) (c : Char) (cs : List Char) (hc : c ≠ '\n') :
    last_marked w (c :: cs) = last_marked (w || !plain c) cs := by
  simp [last_marked, hc]

theorem marked_lines_wordy (s : List Char) :
    ∀ w : Bool, lines_marked w s = true → last_marked w s = true →
      (w = true ∨ wordy ((text_lines s).headD []) = true)
        ∧ ∀ l ∈ (text_lines s).tail, wordy l = true := by
  induction s with
  | nil =>
    intro w _ h2
    simp only [last_marked] at h2
    simp [text_lines, h2]
  | cons c cs ih =>
    intro w h1 h2
    have hne := text_lines_ne_nil cs
    by_cases hc : c = '\n'
    · subst hc
      rw [lines_marked_cons_newline, Bool.and_eq_true] at h1
      rw [last_marked_cons_newline] at h2
      rw [text_lines_cons_newline]
      obtain ⟨ha, hb⟩ := ih false h1.2 h2
      refine ⟨Or.inl h1.1, ?_⟩
      intro l hl
      cases hcs : text_lines cs with
      | nil => exact absurd hcs hne
      | cons l0 ls =>
        rw [hcs] at ha hb
        rw [List.tail_cons, hcs] at hl
        rcases List.mem_cons.1 hl with rfl | hl'
        · simpa using ha
        · exact hb l hl'
    · rw [lines_marked_cons_other _ _ _ hc] at h1
      rw [last_marked_cons_other _ _ _ hc] at h2
      rw [text_lines_cons_other _ _ hc]
      obtain ⟨ha, hb⟩ := ih _ h1 h2
      refine ⟨?_, ?_⟩
      · simp only [List.headD_cons, wordy, List.any_cons, Bool.or_eq_true] at ha ⊢
        rcases ha with (ha | ha) | ha
        · exact Or.inl ha
        · exact Or.inr (Or.inl ha)
        · exact Or.inr (Or.inr ha)
      · intro l hl
        exact hb l hl

theorem lines_marked_mono (s : List Char) :
    ∀ w : Bool, lines_marked w s = true → lines_marked true s = true := by
  induction s with
  | nil => intro _ _; rfl
  | cons c cs ih =>
    intro w h
    by_cases hc : c = '\n'
    · subst hc
      rw [lines_marked_cons_newline, Bool.and_eq_true] at h
      rw [lines_marked_cons_newline, h.2]
      rfl
    · rw [lines_marked_cons_other _ _ _ hc] at h
      rw [lines_marked_cons_other _ _ _ hc, Bool.true_or]
      exact ih _ h

theorem last_marked_mono (s : List Char) :
    ∀ w : Bool, last_marked w s = true → last_marked true s = true := by
  induction s with
  | nil => intro _ _; rfl
  | cons c cs ih =>
    intro w h
    by_cases hc : c = '\n'
    · subst hc
      rw [last_marked_cons_newline] at h ⊢
      exact h
    · rw [last_marked_cons_other _ _ _ hc] at h
      rw [last_marked_cons_other _ _ _ hc, Bool.true_or]
      exact ih _ h

theorem lines_marked_append (a b : List Char) :
    ∀ w : Bool, lines_marked w (a ++ b)
      = (lines_marked w a && lines_marked (last_marked w a) b) := by
  induction a with
  | nil => intro w; simp [lines_marked, last_marked]
  | cons c cs ih =>
    intro w
    by_cases hc : c = '\n'
    · subst hc
      rw [List.cons_append, lines_marked_cons_newline, lines_marked_cons_newline,
        last_marked_cons_newline, ih, Bool.and_assoc]
    · rw [List.cons_append, lines_marked_cons_other _ _ _ hc,
        lines_marked_cons_other _ _ _ hc, last_marked_cons_other _ _ _ hc, ih]

theorem last_marked_append (a b : List Char) :
    ∀ w : Bool, last_marked w (a ++ b) = last_marked (last_marked w a) b := by
  induction a with
  | nil => intro w; simp [last_marked]
  | cons c cs ih =>
    intro w
    by_cases hc : c = '\n'
    · subst hc
      rw [List.cons_append, last_marked_cons_newline, last_marked_cons_newline, ih]
    · rw [List.cons_append, last_marked_cons_other _ _ _ hc,
        last_marked_cons_other _ _ _ hc, ih]

theorem one_line_marked (a : List Char) (h : '\n' ∉ a) :
    ∀ w : Bool, lines_marked w a = true ∧ last_marked w a = (w || wordy a) := by
  induction a with
  | nil => intro w; simp [lines_marked, last_marked, wordy]
  | cons c cs ih =>
    intro w
    have hc : c ≠ '\n' := fun e => h (e ▸ List.mem_cons_self _ _)
    have hcs : '\n' ∉ cs := fun e => h (List.mem_cons_of_mem _ e)
    rw [lines_marked_cons_other _ _ _ hc, last_marked_cons_other _ _ _ hc]
    refine ⟨(ih hcs _).1, ?_⟩
    rw [(ih hcs _).2]
    simp [wordy, Bool.or_assoc]

theorem flows_of_false (s : String) (w : Bool) (h : flows false s) : flows w s := by
  cases w
  · exact h
  · exact ⟨lines_marked_mono _ _ h.1, last_marked_mono _ _ h.2⟩

theorem flows_wordy (w : Bool) (p rest : String) (h1 : one_line p)
    (h2 : wordy p.data = true) (h : flows true rest) : flows w (p ++ rest) := by
  unfold flows at *
  obtain ⟨ha, hb⟩ := one_line_marked p.data h1 w
  rw [String.data_append, lines_marked_append, last_marked_append, ha, hb, h2,
    Bool.or_true]
  exact ⟨by simpa using h.1, h.2⟩

theorem flows_one_line (w : Bool) (p rest : String) (h1 : one_line p)
    (h : flows w rest) : flows w (p ++ rest) := by
  unfold flows at *
  obtain ⟨ha, hb⟩ := one_line_marked p.data h1 w
  rw [String.data_append, lines_marked_append, last_marked_append, ha, hb]
  cases hw : wordy p.data
  · simpa using h
  · rw [Bool.or_true]
    exact ⟨by simpa using lines_marked_mono _ _ h.1, last_marked_mono _ _ h.2⟩

theorem flows_lines (w : Bool) (p rest : String) (h1 : lines_marked w p.data = true)
    (h : flows false rest) : flows w (p ++ rest) := by
  unfold flows at *
  rw [String.data_append, lines_marked_append, last_marked_append, h1]
  have h' := flows_of_false rest (last_marked w p.data) h
  exact ⟨by simpa using h'.1, h'.2⟩

theorem flows_append_one_line (w : Bool) (a b : String) (h : flows w a) (hb : one_line b) :
    flows w (a ++ b) := by
  unfold flows at *
  obtain ⟨h1, h2⟩ := one_line_marked b.data hb (last_marked w a.data)
  rw [String.data_append, lines_marked_append, last_marked_append, h.1, h1, h2, h.2]
  exact ⟨rfl, rfl⟩

theorem flows_item (f : features) (x : Fragment) : flows false (Fragment.item f x) := by
  cases x <;>
    simp only [Fragment.item, field_item, const_getter_item, nonconst_getter_item,
      setter_item, move_setter_item, lock_item, write_type, write_field, lock_class,
      String.append_assoc] <;>
    repeat' first
      | (refine flows_wordy _ _ _ ?_ ?_ ?_
         focus ((repeat' split) <;> (unfold one_line; decide))
         focus ((repeat' split) <;> decide))
      | (refine flows_one_line _ _ _ ?_ ?_
         focus ((repeat' split) <;> (unfold one_line; decide)))
      | (refine flows_lines _ _ _ ?_ ?_
         focus ((repeat' split) <;> decide))
      | ((repeat' split) <;> (unfold flows; decide))

theorem separator_count_append_newline (a b : String) :
    separator_count (a ++ "\n" ++ b) = separator_count a + separator_count b := by
  unfold separator_count
  have e : (a ++ "\n" ++ b).data = a.data ++ '\n' :: b.data := by
    simp [String.data_append]
  rw [e, text_lines_append_newline, List.count_append]

theorem separator_count_flows (s : String) (h : flows false s) : separator_count s = 0 := by
  unfold separator_count
  rw [List.count_eq_zero]
  intro hmem
  obtain ⟨ha, hb⟩ := marked_lines_wordy s.data false h.1 h.2
  have hne := text_lines_ne_nil s.data
  have hw : wordy separator_line = true := by
    cases hl : text_lines s.data with
    | nil => exact absurd hl hne
    | cons l ls =>
      rw [hl] at ha hb hmem
      rcases List.mem_cons.1 hmem with e | e
      · rw [e]
        simpa using ha
      · exact hb _ e
  exact absurd hw (by decide)

theorem continuation_split (s t : String) : (s ++ " \\") ++ "\n" ++ t = s ++ " \\\n" ++ t := by
  have e : " \\\n" = " \\" ++ "\n" := by decide
  rw [e]
  simp only [String.append_assoc]

theorem separator_split (t : String) : "  \\" ++ "\n" ++ t = "  \\\n" ++ t := by
  have e : "  \\\n" = "  \\" ++ "\n" := by decide
  rw [e]

theorem separator_count_later (xs : List String) :
    ∀ x : String, flows false x → (∀ y ∈ xs, flows false y) →
      separator_count (x ++ String.join (xs.map (fun y => " \\\n" ++ "  \\\n" ++ y)))
        = xs.length := by
  induction xs with
  | nil =>
    intro x hx _
    have e : x ++ String.join (List.map (fun y => " \\\n" ++ "  \\\n" ++ y) []) = x := by
      simp [String.join]
    rw [e, separator_count_flows x hx]
    rfl
  | cons y ys ih =>
    intro x hx hys
    have e : x ++ String.join (List.map (fun y => " \\\n" ++ "  \\\n" ++ y) (y :: ys))
        = (x ++ " \\") ++ "\n"
            ++ ("  \\" ++ "\n"
              ++ (y ++ String.join (List.map (fun y => " \\\n" ++ "  \\\n" ++ y) ys))) := by
      rw [List.map_cons, join_cons, continuation_split, separator_split]
      simp only [String.append_assoc]
    rw [e, separator_count_append_newline, separator_count_append_newline,
      ih y (hys y (List.mem_cons_self _ _)) (fun z hz => hys z (List.mem_cons_of_mem _ hz)),
      separator_count_flows _ (flows_append_one_line _ _ _ hx (by unfold one_line; decide))]
    have h1 : separator_count "  \\" = 1 := by decide
    rw [h1, List.length_cons]
    omega

theorem flows_define_line (f : features) :
    flows false (write_macro_comment f ++ "#define " ++ write_macro_name f
      ++ write_macro_args f ++ " \\") := by
  simp only [write_macro_comment, write_macro_name, write_macro_args, String.append_assoc]
  repeat' first
    | (refine flows_wordy _ _ _ ?_ ?_ ?_
       focus ((repeat' split) <;> (unfold one_line; decide))
       focus ((repeat' split) <;> decide))
    | (refine flows_one_line _ _ _ ?_ ?_
       focus ((repeat' split) <;> (unfold one_line; decide)))
    | (refine flows_lines _ _ _ ?_ ?_
       focus ((repeat' split) <;> decide))
    | (unfold flows; decide)

theorem separator_count_declare (f : features) (x : Fragment) (xs : List Fragment)
    (h : emitted_fragments f = x :: xs) :
    separator_count ( declare_macro f) = xs.length := by
  have e : declare_macro f
      = (write_macro_comment f ++ "#define " ++ write_macro_name f
            ++ write_macro_args f ++ " \\") ++ "\n"
          ++ ((Fragment.item f x
                ++ String.join ((xs.map (Fragment.item f)).map
                    (fun y => " \\\n" ++ "  \\\n" ++ y))) ++ "\n" ++ "") := by
    unfold declare_macro
    rw [declare_items_eq_layout, h, List.map_cons, layout_items, continuation_split]
    simp only [String.append_assoc, String.append_empty]
  rw [e, separator_count_append_newline, separator_count_append_newline,
    separator_count_flows _ (flows_define_line f),
    separator_count_later _ _ (flows_item f x)]
  · have h0 : separator_count "" = 0 := by decide
    rw [h0, List.length_map]
    omega
  · intro y hy
    obtain ⟨z, -, rfl⟩ := List.mem_map.1 hy
    exact flows_item f z

/-- C16: separator bookkeeping. For a mask that emits the fragments `x :: xs`
(so `k = 1 + xs.length` fragments, `k ≥ 1`), the body written by `declare_macro`
has no blank separator line before the first emitted fragment and exactly one
directly before each later one; and the whole text of `declare_macro f` holds
exactly `k - 1` blank separator lines (two spaces and a backslash). -/
theorem separator_bookkeeping (f : features) (x : Fragment) (xs : List Fragment)
    (h : emitted_fragments f = x :: xs) :
    declare_items f
        = " \\\n" ++ Fragment.item f x
            ++ String.join (xs.map (fun y => " \\\n" ++ "  \\\n" ++ Fragment.item f y))
      ∧ separator_count ( declare_macro f) = (emitted_fragments f).length - 1 := by
  constructor
  · rw [declare_items_eq_layout, h, List.map_cons, layout_items, List.map_map]
    rfl
  · rw [separator_count_declare f x xs h, h, List.length_cons]
    omega

/-- Witness for C16 at mask 0, which emits five fragments and four separators. -/
theorem separator_bookkeeping_witness :
    emitted_fragments 0
        = .field :: [.constGetter, .nonconstGetter, .copySetter, .moveSetter]
      ∧ separator_count ( declare_macro 0) = (emitted_fragments 0).length - 1 :=
  ⟨by decide, (separator_bookkeeping 0 .field
    [.constGetter, .nonconstGetter, .copySetter, .moveSetter] (by decide)).2⟩

/-! ## Setters and the getter they call -/

theorem occurs_in_append_self (pat post : List Char) : occurs_in pat (pat ++ post) = true := by
  cases h : pat ++ post with
  | nil =>
    have hp : pat = [] := (List.append_eq_nil.1 h).1
    simp [occurs_in, hp]
  | cons c cs =>
    have hpre : pat.isPrefixOf (c :: cs) = true := by
      rw [← h, List.isPrefixOf_iff_prefix]
      exact List.prefix_append _ _
    simp [occurs_in, hpre]

theorem occurs_in_append (pat pre rest : List Char) (h : occurs_in pat rest = true) :
    occurs_in pat (pre ++ rest) = true := by
  induction pre with
  | nil => exact h
  | cons c cs ih => simp [occurs_in, ih]

theorem occurs_in_of_contains (s m : String) (h : contains s m) :
    occurs_in m.data s.data = true := by
  obtain ⟨pre, post, rfl⟩ := h
  rw [String.data_append, String.data_append, List.append_assoc]
  exact occurs_in_append _ _ _ (occurs_in_append_self _ _)

theorem nonconst_getter_not_const (f : features) (h : test f MUTABLE = false) :
    ¬ contains (nonconst_getter_item f) "  Name () const" := by
  intro hc
  have hi := occurs_in_of_contains _ _ hc
  revert hi
  simp only [nonconst_getter_item, write_type, write_field, h]
  generalize test f (PRIVATE ||| PRIV_SET) = b1
  generalize test f (ABSTRACT ||| NOT_CONSTEXPR ||| OVERRIDE) = b2
  generalize test f (ABSTRACT ||| VIRTUAL) = b3
  generalize test f DETECT_TYPE = b4
  generalize test f CUSTOM_FIELD = b5
  generalize test f VOLATILE = b6
  generalize test f (ABSTRACT ||| OVERRIDE ||| VIRTUAL) = b7
  generalize test f EXCEPTIONS = b8
  generalize test f OVERRIDE = b9
  generalize test f ABSTRACT = b10
  revert b1 b2 b3 b4 b5 b6 b7 b8 b9 b10
  decide

theorem setter_not_const (f : features) (h : test f MUTABLE = false) :
    ¬ contains (setter_item f) "Name##_new_value) const" := by
  intro hc
  have hi := occurs_in_of_contains _ _ hc
  revert hi
  simp only [setter_item, write_type, write_field, h]
  generalize test f (PRIVATE ||| PRIV_SET) = b1
  generalize test f DETECT_TYPE = b2
  generalize test f CUSTOM_FIELD = b3
  generalize test f PASS_BY_VALUE = b4
  generalize test f EXCEPTIONS = b5
  revert b1 b2 b3 b4 b5
  decide

theorem move_setter_not_const (f : features) (h : test f MUTABLE = false) :
    ¬ contains (move_setter_item f) " &&Name##_new_value) const" := by
  intro hc
  have hi := occurs_in_of_contains _ _ hc
  revert hi
  simp only [move_setter_item, write_type, write_field, h]
  generalize test f (PRIVATE ||| PRIV_SET) = b1
  generalize test f DETECT_TYPE = b2
  generalize test f CUSTOM_FIELD = b3
  generalize test f EXCEPTIONS = b4
  revert b1 b2 b3 b4
  decide

theorem nonconst_getter_const (f : features) (h : test f MUTABLE = true) :
    contains (nonconst_getter_item f) "  Name () const" := by
  unfold nonconst_getter_item
  simp only [h, if_true]
  apply contains_append_left
  apply contains_append_left
  apply contains_append_left
  exact contains_tail_two _ _ _ _ (by decide)

theorem setter_const (f : features) (h : test f MUTABLE = true) :
    contains (setter_item f) "Name##_new_value) const" := by
  unfold setter_item
  simp only [h, if_true]
  apply contains_append_left
  apply contains_append_left
  apply contains_append_left
  apply contains_append_left
  apply contains_append_left
  exact contains_tail_two _ _ _ _ (by decide)

theorem move_setter_const (f : features) (h : test f MUTABLE = true) :
    contains (move_setter_item f) " &&Name##_new_value) const" := by
  unfold move_setter_item
  simp only [h, if_true]
  apply contains_append_left
  apply contains_append_left
  apply contains_append_left
  apply contains_append_left
  apply contains_append_left
  exact contains_tail_two _ _ _ _ (by decide)

theorem writable_label_eq (f : features) :
    writable_label f
      = if test f (PRIVATE ||| PRIV_SET) then "  private: \\\n" else "  public: \\\n" := by
  have e1 : test f PRIVATE = isSet f .private_ := test_flag f .private_
  have e2 : test f PRIV_SET = isSet f .privSet := test_flag f .privSet
  unfold writable_label
  rw [test_or, e1, e2]

theorem setter_labels (f : features) :
    (∃ rest, nonconst_getter_item f = writable_label f ++ rest)
      ∧ (∃ rest, setter_item f = writable_label f ++ rest)
      ∧ (∃ rest, move_setter_item f = writable_label f ++ rest) := by
  rw [writable_label_eq]
  refine ⟨?_, ?_, ?_⟩
  · unfold nonconst_getter_item
    simp only [String.append_assoc]
    exact ⟨_, rfl⟩
  · unfold setter_item
    simp only [String.append_assoc]
    exact ⟨_, rfl⟩
  · unfold move_setter_item
    simp only [String.append_assoc]
    exact ⟨_, rfl⟩

theorem setter_bodies (f : features) :
    contains (setter_item f) "    Name () = Name##_new_value; \\\n"
      ∧ contains (move_setter_item f) "    Name () = std::move (Name##_new_value); \\\n" := by
  constructor
  · unfold setter_item
    apply contains_append_left
    exact contains_tail _ _
  · unfold move_setter_item
    apply contains_append_left
    exact contains_tail _ _

theorem setter_gate_getter_gate (f : features)
    (h : Fragment.gate f .copySetter = true ∨ Fragment.gate f .moveSetter = true) :
    Fragment.gate f .nonconstGetter = true := by
  simp only [Fragment.gate, Bool.and_eq_true, Bool.not_eq_true'] at h ⊢
  rcases h with h | h
  · exact ⟨h.1.2, h.2⟩
  · exact ⟨h.1.2, h.2⟩

theorem const_iff_mutable (f : features) :
    (contains (nonconst_getter_item f) "  Name () const" ↔ isSet f .mutable_ = true)
      ∧ (contains (setter_item f) "Name##_new_value) const" ↔ isSet f .mutable_ = true)
      ∧ (contains (move_setter_item f) " &&Name##_new_value) const"
          ↔ isSet f .mutable_ = true) := by
  have em : test f MUTABLE = isSet f .mutable_ := test_flag f .mutable_
  rw [← em]
  cases h : test f MUTABLE
  · exact ⟨⟨fun hc => absurd hc (nonconst_getter_not_const f h), fun e => Bool.noConfusion e⟩,
      ⟨fun hc => absurd hc (setter_not_const f h), fun e => Bool.noConfusion e⟩,
      ⟨fun hc => absurd hc (move_setter_not_const f h), fun e => Bool.noConfusion e⟩⟩
  · exact ⟨⟨fun _ => rfl, fun _ => nonconst_getter_const f h⟩,
      ⟨fun _ => rfl, fun _ => setter_const f h⟩,
      ⟨fun _ => rfl, fun _ => move_setter_const f h⟩⟩

/-- C21: a setter never delegates to a getter that was not generated. For every
mask: if the copy setter or the move setter is emitted, the non-const getter is
emitted as well. The bodies of both setters assign through the call `Name ()`.
The non-const getter and both setters start with the same access label
(`private:` if PRIVATE or PRIV_SET is set, `public:` otherwise), and each of the
three is const-qualified if and only if MUTABLE is set. -/
theorem setter_delegates_to_getter (f : features) :
    ((Fragment.gate f .copySetter = true ∨ Fragment.gate f .moveSetter = true) →
        Fragment.gate f .nonconstGetter = true)
      ∧ (∀ first_item : Bool,
          ((declare_setter f first_item).1 ≠ "" ∨ (declare_move_setter f first_item).1 ≠ "")
            → ∀ first_item' : Bool, (declare_nonconst_getter f first_item').1
                = (begin_item first_item').1 ++ nonconst_getter_item f)
      ∧ (contains (setter_item f) "    Name () = Name##_new_value; \\\n"
          ∧ contains (move_setter_item f)
              "    Name () = std::move (Name##_new_value); \\\n")
      ∧ ((∃ rest, nonconst_getter_item f = writable_label f ++ rest)
          ∧ (∃ rest, setter_item f = writable_label f ++ rest)
          ∧ (∃ rest, move_setter_item f = writable_label f ++ rest))
      ∧ ((contains (nonconst_getter_item f) "  Name () const" ↔ isSet f .mutable_ = true)
          ∧ (contains (setter_item f) "Name##_new_value) const"
              ↔ isSet f .mutable_ = true)
          ∧ (contains (move_setter_item f) " &&Name##_new_value) const"
              ↔ isSet f .mutable_ = true)) := by
  refine ⟨setter_gate_getter_gate f, ?_, setter_bodies f, setter_labels f,
    const_iff_mutable f⟩
  intro first_item h first_item'
  have hg : Fragment.gate f .copySetter = true ∨ Fragment.gate f .moveSetter = true := by
    rcases h with h | h
    · exact Or.inl ((declare_ne_empty_iff f .copySetter first_item).1 h)
    · exact Or.inr ((declare_ne_empty_iff f .moveSetter first_item).1 h)
  have e := declare_eq f .nonconstGetter first_item'
  simp only [Fragment.declare, setter_gate_getter_gate f hg, if_true, Fragment.item] at e
  rw [e]

/-- Witness for C21 at mask 0, which emits both setters and the non-const
getter. -/
theorem setter_delegates_to_getter_witness :
    Fragment.gate 0 .copySetter = true
      ∧ Fragment.gate 0 .nonconstGetter = true
      ∧ (declare_setter 0 false).1 ≠ ""
      ∧ (declare_nonconst_getter 0 false).1
          = (begin_item false).1 ++ nonconst_getter_item 0 :=
  ⟨by decide, (setter_delegates_to_getter 0).1 (Or.inl (by decide)),
   by decide,
   (setter_delegates_to_getter 0).2.1 false (Or.inl (by decide)) false⟩

end Faster
